import Mathlib

/-!
# go-astibob: identifier matching, the index's UI routing, the worker's routing

A shallow embedding of `message.go` (`Identifier`, `Message`,
`Identifier.match`, the register message and its payload), of `index/ui.go`
(`handleUIMessage`, `sendMessageToUI`, `registerUI`, `unregisterUI`), of
`worker/ui.go` (`sendMessageToUI`) and of `worker/worker.go`
(`sendMessageToWorker`, `sendRequestToWorker`).

Conventions of the embedding

* a Go `*string` is an `Option String` (`nil` is `none`);
* a Go `map[string]V` is a `GoMap V`: a finite association list with distinct
  keys; a nil map that is only read behaves as the empty map, and where the
  source tests `!= nil` the field is an `Option (GoMap V)`;
* a `range` loop over a map visits the keys in the order of `GoMap.keys`; Go
  fixes no order. The results speak of membership, or of the list of keys as
  the loop meets them, so they hold for whatever order the runtime picks;
  where the outcome depends on the order (the broadcast of
  `sendMessageToWorker`), the order is named in the statement;
* a method that mutates the receiver and returns `err` becomes a function
  from the old state to a record of the new state, the effects and `err`;
* what a method asks of a library or of a file that is not at hand (the
  websocket and HTTP clients, `Identifier.WorkerName`) is a parameter;
* a JSON document is the object it denotes, one optional member for each
  `omitempty` field; a `json.RawMessage` is the value it holds together with
  the spelling of its bytes (as `json.Marshal` writes them, or otherwise);
* a subscription index that the code can hold is one that `registerUI` and
  `unregisterUI` build from the empty index (`runCalls GoMap.make calls`);
* locks and logging have no counterpart: each method is embedded as one
  atomic step.
-/

namespace Astibob

/-! ## Go maps -/

/-- A Go `map[string]V`. -/
abbrev GoMap (V : Type) : Type := AList (fun _ : String => V)

namespace GoMap

/-- The `ok` of `_, ok := m[k]`. -/
def has {V : Type} (m : GoMap V) (k : String) : Bool :=
  (AList.lookup k m).isSome

/-- The keys of the map, in the order a `range` loop visits them. -/
def keys {V : Type} (m : GoMap V) : List String :=
  AList.keys m

/-- The `m[k] = v` assignment. -/
def set {V : Type} (m : GoMap V) (k : String) (v : V) : GoMap V :=
  AList.insert k v m

/-- The `delete(m, k)` builtin. -/
def delete {V : Type} (m : GoMap V) (k : String) : GoMap V :=
  AList.erase k m

/-- The `len(m)` builtin. -/
def len {V : Type} (m : GoMap V) : Nat :=
  (AList.keys m).length

/-- The `make(map[string]V)` builtin. -/
def make {V : Type} : GoMap V :=
  (∅ : AList (fun _ : String => V))

/-- The read `m[k]` of a map of maps: the inner map, or the nil map (no
entry) when `k` is not a key. -/
def get {V : Type} (m : GoMap (GoMap V)) (k : String) : GoMap V :=
  (AList.lookup k m).getD make

end GoMap

/-! ## message.go -/

/-- Identifier types. -/
def AbilityIdentifierType : String := "ability"

/-- Identifier type of the index. -/
def IndexIdentifierType : String := "index"

/-- Identifier type of a UI session. -/
def UIIdentifierType : String := "ui"

/-- Identifier type of a worker. -/
def WorkerIdentifierType : String := "worker"

/-- The `Identifier` struct. -/
structure Identifier where
  Name : Option String := none
  /-- The Go field `Type` (a reserved word here). -/
  Typ : String := ""
  Types : Option (GoMap Bool) := none
  Worker : Option String := none
deriving DecidableEq

/-- The "Check type" block of `Identifier.match` (lines 49 to 74): `true` when
the block falls through, `false` when it returns false. -/
def Identifier.checkType (o i : Identifier) : Bool :=
  match o.Types with
  | some oTypes =>
    match i.Types with
    | some iTypes =>
      -- for t := range i.Types: match as soon as o.Types holds t
      iTypes.keys.any (fun t => oTypes.has t)
    | none => oTypes.has i.Typ
  | none =>
    match i.Types with
    | some iTypes => iTypes.has o.Typ
    | none => decide (o.Typ = i.Typ)

/-- The "Check name" test of `Identifier.match` (line 77), negated: `true`
when the test does not return false. -/
def Identifier.checkName (o i : Identifier) : Bool :=
  match o.Name with
  | some oName =>
    match i.Name with
    | none => false
    | some iName => decide (oName = iName)
  | none => true

/-- The "Check worker" test of `Identifier.match` (line 82), negated. -/
def Identifier.checkWorker (o i : Identifier) : Bool :=
  match o.Worker with
  | some oWorker =>
    match i.Worker with
    | none => false
    | some iWorker => decide (oWorker = iWorker)
  | none => true

/-- The method `func (o *Identifier) match(i Identifier) bool`: `o` is the
filter, `i` the candidate. -/
def Identifier.matchIdentifier (o i : Identifier) : Bool :=
  if !o.checkType i then false
  else if !o.checkName i then false
  else if !o.checkWorker i then false
  else true

/-- The `Metadata` struct. -/
structure Metadata where
  Description : String := ""
  Name : String := ""
deriving DecidableEq

/-- The `Ability` struct; `Metadata` is the embedded struct. -/
structure Ability where
  Metadata : Metadata := {}
  Status : String := ""
  UIHomepage : String := ""
deriving DecidableEq

/-- The `Worker` struct of `message.go`. A Go slice is a list: the nil slice
and the empty slice are both `[]`. -/
structure Worker where
  Abilities : List Ability := []
  Addr : String := ""
  Name : String := ""
deriving DecidableEq

/-- The JSON object that `encoding/json` writes for an `Ability`, member by
member as the struct tags name them: the members of the embedded `Metadata`
are promoted, and `ui_homepage` is `omitempty` (`none` when left out). -/
structure AbilityJSON where
  description : String
  name : String
  status : String
  ui_homepage : Option String
deriving DecidableEq

/-- The JSON object written for a `Worker`: `abilities` and `addr` are
`omitempty`. -/
structure WorkerJSON where
  abilities : Option (List AbilityJSON)
  addr : Option String
  name : String
deriving DecidableEq

/-- A message payload. The source keeps it as `json.RawMessage`; the embedding
keeps the value the bytes encode, one constructor per payload shape that the
files at hand build or parse, and `malformed` for bytes that are not JSON.
`name` is a JSON string, `names` a JSON array of strings, `ui` and `worker`
are JSON objects. `json.Unmarshal` decodes an object into any struct, with
the members that the two share (here `name`), and fails on a string or an
array where a struct is asked for. -/
inductive Payload where
  | empty
  | name (s : String)
  | names (ns : List String)
  | ui (uiName : String) (messageNames : List String)
  | malformed
  | worker (w : WorkerJSON)
deriving DecidableEq

/-- How the bytes of a `json.RawMessage` spell the JSON value they hold:
`marshalled` is the text that `json.Marshal` writes for the value (no white
space between the tokens; `<`, `>` and `&` escaped in strings), `other` is any
other text of the same value. -/
inductive Spelling where
  | marshalled
  | other
deriving DecidableEq

/-- The `Message` struct. The bytes of the field `Payload` are kept in two
parts: the value they hold, in `Payload`, and how they spell it, in
`PayloadSpelling` (which says nothing when there is no payload). -/
structure Message where
  From : Identifier := {}
  Name : String := ""
  Payload : Payload := Payload.empty
  To : Option Identifier := none
  PayloadSpelling : Spelling := Spelling.marshalled
deriving DecidableEq

/-- The function `newMessage`. -/
def newMessage (from_ : Identifier) (to_ : Option Identifier) (name : String) : Message :=
  { From := from_, Name := name, To := to_ }

/-- Modelled from the spec: the message names `ui.message_names.add` and
`ui.message_names.delete` of the catalog; the constants are declared in a
file that is not at hand. -/
def UIMessageNamesAddMessage : String := "ui.message_names.add"

/-- Modelled from the spec: see `UIMessageNamesAddMessage`. -/
def UIMessageNamesDeleteMessage : String := "ui.message_names.delete"

/-- Modelled from the spec: `astibob.UI`, the payload with which a UI session
subscribes (its name and the message names it wants); `registerUI` reads the
fields `Name` and `MessageNames`. -/
structure UI where
  MessageNames : List String := []
  Name : String := ""
deriving DecidableEq

/-- Modelled from the spec: `astibob.NewIndexIdentifier`, the identifier of the
index. -/
def NewIndexIdentifier : Identifier :=
  { Typ := IndexIdentifierType }

/-- Modelled from the spec: `astibob.ParseUIRegisterPayload`, which decodes the
payload of a message into a `UI`; it fails on a payload that is not an
object, and takes from a worker object the member `name` alone. -/
def ParseUIRegisterPayload (m : Message) : Except String UI :=
  match m.Payload with
  | Payload.ui uiName messageNames => Except.ok { MessageNames := messageNames, Name := uiName }
  | Payload.worker j => Except.ok { MessageNames := [], Name := j.name }
  | _ => Except.error "astibob: unmarshaling failed"

/-- Modelled from the spec: `astibob.ParseUIDisconnectedPayload`, which decodes
the payload of `event.ui.disconnected` into the session name; it is
`ParseEventUIDisconnectedPayload` of `message.go` under its later name. -/
def ParseUIDisconnectedPayload (m : Message) : Except String String :=
  match m.Payload with
  | Payload.name s => Except.ok s
  | _ => Except.error "astibob: unmarshaling failed"

/-- Modelled from the spec: `astibob.NewUIMessageNamesAddMessage`, a message
named `ui.message_names.add` whose payload is the list of names; built like
the constructors of `message.go` (`newMessage`, then the marshalled payload). -/
def NewUIMessageNamesAddMessage (from_ : Identifier) (to_ : Option Identifier)
    (names : List String) : Except String Message :=
  Except.ok { newMessage from_ to_ UIMessageNamesAddMessage with Payload := Payload.names names }

/-- Modelled from the spec: `astibob.NewUIMessageNamesDeleteMessage`, a message
named `ui.message_names.delete` whose payload is the list of names. -/
def NewUIMessageNamesDeleteMessage (from_ : Identifier) (to_ : Option Identifier)
    (names : List String) : Except String Message :=
  Except.ok { newMessage from_ to_ UIMessageNamesDeleteMessage with Payload := Payload.names names }

/-- The Go `errors.Wrap(err, msg)`. -/
def wrap (err msg : String) : String :=
  msg ++ ": " ++ err

/-- The function `errors.Wrap` of `github.com/pkg/errors` on an error that may
be nil: "If err is nil, Wrap returns nil." -/
def errorsWrap (err : Option String) (msg : String) : Option String :=
  err.map (fun e => wrap e msg)

/-- The constant `CmdWorkerRegisterMessage`. -/
def CmdWorkerRegisterMessage : String := "cmd.worker.register"

/-! ## encoding/json on the structs of message.go

The text of a JSON document is left out: a document is the object it
denotes, with one optional member per `omitempty` field. `encoding/json`
leaves an `omitempty` field out when it is false, 0, a nil pointer, or an
empty array, slice, map or string, and decoding leaves the field of a missing
member at its zero value. -/

/-- The `omitempty` rule for a string field. -/
def omitEmptyString (s : String) : Option String :=
  if s = "" then none else some s

/-- The call `json.Marshal` on an `Ability`. -/
def marshalAbility (a : Ability) : AbilityJSON :=
  { description := a.Metadata.Description
    name := a.Metadata.Name
    status := a.Status
    ui_homepage := omitEmptyString a.UIHomepage }

/-- The call `json.Unmarshal` of an ability object into a zero `Ability`. -/
def unmarshalAbility (j : AbilityJSON) : Ability :=
  { Metadata := { Description := j.description, Name := j.name }
    Status := j.status
    UIHomepage := j.ui_homepage.getD "" }

/-- The call `json.Marshal(w)` on a `Worker`. -/
def marshalWorker (w : Worker) : WorkerJSON :=
  { abilities := if w.Abilities = [] then none else some (w.Abilities.map marshalAbility)
    addr := omitEmptyString w.Addr
    name := w.Name }

/-- The call `json.Unmarshal` of a worker object into a zero `Worker`. -/
def unmarshalWorker (j : WorkerJSON) : Worker :=
  { Abilities := (j.abilities.getD []).map unmarshalAbility
    Addr := j.addr.getD ""
    Name := j.name }

/-- The JSON object written for an `Identifier`: every member is `omitempty`;
`name` and `worker` are pointers (left out when nil, kept when they point to
the empty string), `types` is a map (left out when nil or empty). -/
structure IdentifierJSON where
  name : Option String
  typ : Option String
  types : Option (GoMap Bool)
  worker : Option String
deriving DecidableEq

/-- The call `json.Marshal` on an `Identifier`. -/
def marshalIdentifier (i : Identifier) : IdentifierJSON :=
  { name := i.Name
    typ := omitEmptyString i.Typ
    types :=
      match i.Types with
      | some ts => if ts.len = 0 then none else some ts
      | none => none
    worker := i.Worker }

/-- The call `json.Unmarshal` of an identifier object into a zero
`Identifier`. -/
def unmarshalIdentifier (j : IdentifierJSON) : Identifier :=
  { Name := j.name
    Typ := j.typ.getD ""
    Types := j.types
    Worker := j.worker }

/-- The JSON envelope written for a `Message`: `payload` and `to` are
`omitempty`. -/
structure MessageJSON where
  from_ : IdentifierJSON
  name : String
  payload : Option Payload
  to_ : Option IdentifierJSON
  payloadSpelling : Spelling := Spelling.marshalled
deriving DecidableEq

/-- The call `json.Marshal(m)` on a `Message`. A `json.RawMessage` makes
`Marshal` fail when it does not hold JSON; when it does, `Marshal` writes its
value compacted and escaped, that is in the spelling `marshalled`, whatever
the spelling of the bytes was. -/
def marshalMessage (m : Message) : Except String MessageJSON :=
  match m.Payload with
  | Payload.malformed => Except.error "json: error calling MarshalJSON for type json.RawMessage"
  | p =>
    Except.ok
      { from_ := marshalIdentifier m.From
        name := m.Name
        payload := if p = Payload.empty then none else some p
        to_ := m.To.map marshalIdentifier
        payloadSpelling := Spelling.marshalled }

/-- The call `json.Unmarshal(p, m)` of an envelope into a zero `Message`; a
`json.RawMessage` takes the bytes of the member `payload` as they stand. -/
def unmarshalMessage (j : MessageJSON) : Message :=
  { From := unmarshalIdentifier j.from_
    Name := j.name
    Payload := j.payload.getD Payload.empty
    To := j.to_.map unmarshalIdentifier
    PayloadSpelling := j.payloadSpelling }

/-- A byte slice handed to `json.Unmarshal(p, m)`: the envelope it holds, or
bytes that do not decode into a `Message`, with the error of the decoder. -/
inductive Bytes where
  | envelope (j : MessageJSON)
  | invalid (err : String)
deriving DecidableEq

/-- The function `NewCmdWorkerRegisterMessage`; marshalling a `Worker` cannot
fail. -/
def NewCmdWorkerRegisterMessage (from_ : Identifier) (to_ : Option Identifier) (w : Worker) :
    Except String Message :=
  Except.ok
    { newMessage from_ to_ CmdWorkerRegisterMessage with Payload := Payload.worker (marshalWorker w) }

/-- The function `ParseCmdWorkerRegisterPayload`; it fails on a payload that
is not an object, and takes from a UI object the member `name` alone. -/
def ParseCmdWorkerRegisterPayload (m : Message) : Except String Worker :=
  match m.Payload with
  | Payload.worker j => Except.ok (unmarshalWorker j)
  | Payload.ui uiName _ => Except.ok { Name := uiName }
  | _ => Except.error "astibob: unmarshaling failed"

/-! ## index/ui.go -/

/-- The subscription index `i.us`: message name to the set of UI sessions
that asked for it (`map[string]map[string]bool`). -/
abbrev Subscriptions : Type := GoMap (GoMap Bool)

/-- The function `sendMessage(m, label, manager, names...)` of the index
package, which is not at hand: what it returns (`none` for a nil error) is a
parameter of the embedding, and its call is recorded in `SendOutcome.sent`. -/
abbrev SendMessage : Type := Message → String → List String → Option String

/-- What `sendMessageToUI` does: the `names` handed to `sendMessage` (`none`
when `sendMessage` is not called) and the error returned. -/
structure SendOutcome where
  sent : Option (List String)
  err : Option String
deriving DecidableEq

/-- The method `Index.sendMessageToUI`. -/
def sendMessageToUI (sendMessage : SendMessage) (us : Subscriptions) (m : Message) :
    SendOutcome :=
  match m.To with
  | none => { sent := none, err := some "index: invalid to" }
  | some to_ =>
    let send (names : List String) : SendOutcome :=
      { sent := some names
        err := (sendMessage m "ui" names).map (fun e => wrap e "index: sending message failed") }
    match to_.Name with
    | some toName => send [toName]
    | none =>
      -- No UI has requested this message
      match AList.lookup m.Name us with
      | none => { sent := none, err := none }
      | some sessions => send sessions.keys

/-- What `registerUI` and `unregisterUI` do: the subscription index after the
call, the messages handed to `i.d.Dispatch`, the names handed to
`i.wu.UnregisterClient`, and the error returned. -/
structure Outcome where
  us : Subscriptions
  dispatched : List Message
  unregistered : List String
  err : Option String
deriving DecidableEq

/-- One turn of the loop of `registerUI` over `u.MessageNames`; the state is
`i.us` and the slice `ns`. -/
def registerUI.step (uiName : String) (st : Subscriptions × List String) (n : String) :
    Subscriptions × List String :=
  -- Message name key doesn't exist: create key, append
  let st1 : Subscriptions × List String :=
    if !st.1.has n then (st.1.set n GoMap.make, st.2 ++ [n]) else st
  -- Add ui
  (st1.1.set n ((st1.1.get n).set uiName true), st1.2)

/-- The method `Index.registerUI`. -/
def registerUI (us : Subscriptions) (m : Message) : Outcome :=
  match m.From.Name with
  | none => { us := us, dispatched := [], unregistered := [], err := some "index: from name is empty" }
  | some _ =>
    match ParseUIRegisterPayload m with
    | Except.error e =>
      { us := us, dispatched := [], unregistered := []
        err := some (wrap e "index: parsing message payload failed") }
    | Except.ok u =>
      let st := u.MessageNames.foldl (registerUI.step u.Name) (us, [])
      match NewUIMessageNamesAddMessage NewIndexIdentifier
          (some { Typ := WorkerIdentifierType }) st.2 with
      | Except.error e =>
        { us := st.1, dispatched := [], unregistered := []
          err := some (wrap e "index: creating ui message names add failed") }
      | Except.ok msg => { us := st.1, dispatched := [msg], unregistered := [], err := none }

/-- One turn of the loop of `unregisterUI` over the keys of `i.us`. -/
def unregisterUI.step (name : String) (st : Subscriptions × List String) (n : String) :
    Subscriptions × List String :=
  -- Remove ui: delete(i.us[n], name), on the inner map in place
  let us1 : Subscriptions :=
    match AList.lookup n st.1 with
    | some sessions => st.1.set n (sessions.delete name)
    | none => st.1
  -- Message name is not needed anymore: remove key, append
  if (us1.get n).len = 0 then (us1.delete n, st.2 ++ [n]) else (us1, st.2)

/-- The method `Index.unregisterUI`. -/
def unregisterUI (us : Subscriptions) (m : Message) : Outcome :=
  match ParseUIDisconnectedPayload m with
  | Except.error e =>
    { us := us, dispatched := [], unregistered := []
      err := some (wrap e "index: parsing message payload failed") }
  | Except.ok name =>
    let st := us.keys.foldl (unregisterUI.step name) (us, [])
    match NewUIMessageNamesDeleteMessage NewIndexIdentifier
        (some { Typ := WorkerIdentifierType }) st.2 with
    | Except.error e =>
      { us := st.1, dispatched := [], unregistered := [name]
        err := some (wrap e "index: creating ui message names delete failed") }
    | Except.ok msg => { us := st.1, dispatched := [msg], unregistered := [name], err := none }

/-- The sessions subscribed to message name `n` in `us`: the keys of `us[n]`,
none when `n` is not a key. -/
def subscribers (us : Subscriptions) (n : String) : List String :=
  (us.get n).keys

/-- The names a dispatched message carries in its payload. -/
def Message.names (m : Message) : List String :=
  match m.Payload with
  | Payload.names ns => ns
  | _ => []

/-- What `handleUIMessage` does: the messages handed to `i.d.Dispatch` and the
error returned. -/
structure HandleOutcome where
  dispatched : List Message
  err : Option String
deriving DecidableEq

/-- The method `Index.handleUIMessage`. -/
def handleUIMessage (p : Bytes) : HandleOutcome :=
  match p with
  | Bytes.invalid e => { dispatched := [], err := some (wrap e "index: unmarshaling failed") }
  | Bytes.envelope j => { dispatched := [unmarshalMessage j], err := none }

/-! ## worker/worker.go and worker/ui.go -/

namespace WorkerPackage

/-- The method `Identifier.WorkerName()`, which is declared in a file that is
not at hand: the worker an identifier names, the empty string when it names
none. It is a parameter of the embedding. -/
abbrev WorkerNameOf : Type := Identifier → String

/-- The `worker` struct, a sibling of the current worker; the runnables `rs`
and their lock play no part in the routing. -/
structure worker where
  addr : String
  name : String
deriving DecidableEq

/-- The sibling table `w.ws` (`map[string]*worker`). -/
abbrev Siblings : Type := GoMap worker

/-- What `sendRequestToWorker` reads of an `*http.Response`: the status code
and the `Message` of the `astibob.Error` decoded from the body (the empty
string when the body holds none). -/
structure Response where
  StatusCode : Nat
  Message : String
deriving DecidableEq

/-- The `net/http` calls of `sendRequestToWorker`: the error of
`http.NewRequest(method, url, body)` (`none` for nil) and the result of
`w.ch.Do(req)`. They are parameters of the embedding. -/
structure HTTPClient where
  NewRequest : String → String → MessageJSON → Option String
  Do : String → String → MessageJSON → Except String Response

/-- The constant `http.StatusOK`. -/
def StatusOK : Nat := 200

/-- The method `Worker.sendRequestToWorker`. -/
def sendRequestToWorker (ch : HTTPClient) (method url : String) (body : MessageJSON) :
    Option String :=
  -- Create request
  match ch.NewRequest method url body with
  | some e => some (wrap e "worker: creating request failed")
  | none =>
    -- Send request
    match ch.Do method url body with
    | Except.error e => some (wrap e "worker: sending request failed")
    | Except.ok resp =>
      -- Check status code
      if resp.StatusCode ≠ StatusOK then
        if resp.Message ≠ "" then
          some ("worker: response error message is " ++ resp.Message)
        else
          some ("worker: response status code is " ++ toString resp.StatusCode)
      else none

/-- A call of `sendRequestToWorker`: its three arguments. -/
structure Request where
  method : String
  url : String
  body : MessageJSON
deriving DecidableEq

/-- The requests that a call of `sendRequestToWorker` hands to `w.ch.Do`: the
request itself when `http.NewRequest` built it, none when it did not (the
method returns before `w.ch.Do`). -/
def sendRequestToWorker.sent (ch : HTTPClient) (method url : String) (body : MessageJSON) :
    List Request :=
  match ch.NewRequest method url body with
  | some _ => []
  | none => [{ method := method, url := url, body := body }]

/-- What `sendMessageToWorker` does: in `requests` the calls of
`sendRequestToWorker`, in order; in `sent` the requests among them that were
handed to `w.ch.Do`, that is issued on the network; and the error returned. -/
structure RequestsOutcome where
  requests : List Request
  err : Option String
  sent : List Request := []
deriving DecidableEq

/-- The last loop of `sendMessageToWorker`, over the workers gathered in
`ws`; `calls` and `done` hold the calls of `sendRequestToWorker` and the
requests sent in the turns already done. -/
def sendMessageToWorker.loop (ch : HTTPClient) (m : Message) :
    List worker → List Request → List Request → RequestsOutcome
  | [], calls, done => { requests := calls, err := none, sent := done }
  | mw :: rest, calls, done =>
    -- Marshal
    match marshalMessage m with
    | Except.error e =>
      { requests := calls, err := some (wrap e "worker: marshaling failed"), sent := done }
    | Except.ok b =>
      -- Send request
      match sendRequestToWorker ch "POST" (mw.addr ++ "/api/messages") b with
      | some e =>
        { requests := calls ++ [{ method := "POST", url := mw.addr ++ "/api/messages", body := b }]
          err := some (wrap e ("worker: sending request to worker " ++ mw.name ++ " failed"))
          sent := done ++ sendRequestToWorker.sent ch "POST" (mw.addr ++ "/api/messages") b }
      | none =>
        sendMessageToWorker.loop ch m rest
          (calls ++ [{ method := "POST", url := mw.addr ++ "/api/messages", body := b }])
          (done ++ sendRequestToWorker.sent ch "POST" (mw.addr ++ "/api/messages") b)

/-- The values of the sibling table in the order a `range` loop visits
them. -/
def Siblings.values (ws : Siblings) : List worker :=
  ws.entries.map (fun e => e.2)

/-- The method `Worker.sendMessageToWorker`; `name` is `w.name` and `ws` is
`w.ws`. -/
def sendMessageToWorker (workerName : WorkerNameOf) (ch : HTTPClient) (name : String)
    (ws : Siblings) (m : Message) : RequestsOutcome :=
  -- Only send message from the current worker
  if workerName m.From ≠ name then { requests := [], err := none }
  else
    match m.To with
    | none =>
      -- Invalid to: the named result err is still nil when it is wrapped
      { requests := [], err := errorsWrap none "worker: no to" }
    | some to_ =>
      if workerName to_ ≠ "" then
        -- Only send message to other workers
        if workerName to_ = name then { requests := [], err := none }
        else
          match AList.lookup (workerName to_) ws with
          | none =>
            { requests := []
              err := some ("worker: worker " ++ workerName to_ ++ " doesn't exist") }
          | some mw => sendMessageToWorker.loop ch m [mw] [] []
      else
        -- Loop through workers, the current one left out
        sendMessageToWorker.loop ch m
          ((Siblings.values ws).filter (fun mw => decide (mw.name ≠ name))) [] []

/-- What the worker's `sendMessageToUI` does: the messages handed to
`w.cw.WriteJSON` and the error returned. -/
structure WriteOutcome where
  written : List Message
  err : Option String
deriving DecidableEq

/-- The method `Worker.sendMessageToUI`; `name` is `w.name`, `us` is `w.us`
and `writeJSON` is the error of `w.cw.WriteJSON(m)` (`none` for nil). -/
def sendMessageToUI (workerName : WorkerNameOf) (writeJSON : Message → Option String)
    (name : String) (us : GoMap Bool) (m : Message) : WriteOutcome :=
  -- Only send message from current worker
  if workerName m.From ≠ name then { written := [], err := none }
  -- No UI requested this message
  else if !us.has m.Name then { written := [], err := none }
  else
    { written := [m]
      err := (writeJSON m).map (fun e => wrap e "worker: writing JSON message failed") }

end WorkerPackage

/-! ## worker.New: the handlers registered on `To` -/

/-- Modelled from the spec: the identifier type `runnable`; the constant
`RunnableIdentifierType` is declared in a file that is not at hand. -/
def RunnableIdentifierType : String := "runnable"

/-- The three handlers that `worker.New` registers with a condition on `To`
(worker.go, lines 87 to 92). -/
inductive ToHandler where
  | sendMessageToIndex
  | sendMessageToUI
  | sendMessageToWorker
deriving DecidableEq

/-- The `To` of the condition of `sendMessageToIndex`. -/
def toIndexFilter : Identifier :=
  { Typ := IndexIdentifierType }

/-- The `To` of the condition of `sendMessageToUI`. -/
def toUIFilter : Identifier :=
  { Typ := UIIdentifierType }

/-- The `To` of the condition of `sendMessageToWorker`: the map literal with
the keys `RunnableIdentifierType` and `WorkerIdentifierType`. -/
def toWorkerFilter : Identifier :=
  { Types := some ((GoMap.make.set RunnableIdentifierType true).set WorkerIdentifierType true) }

/-- The conditions on `To` of `worker.New`, in the order of registration. -/
def toConditions : List (Identifier × ToHandler) :=
  [(toIndexFilter, ToHandler.sendMessageToIndex),
   (toUIFilter, ToHandler.sendMessageToUI),
   (toWorkerFilter, ToHandler.sendMessageToWorker)]

/-- Modelled from the spec: the dispatcher, which is not at hand, runs every
handler whose condition matches; a condition that carries only `To` matches
when its filter matches the `To` of the message under `Identifier.match`.
These are the handlers, among the three above, run for a message whose `To`
is `c`. -/
def routedBy (c : Identifier) : List ToHandler :=
  (toConditions.filter (fun p => p.1.matchIdentifier c)).map (fun p => p.2)

/-! ## Definitions used to state the results -/

/-- What the loop of `unregisterUI(name)` makes of one entry of `i.us`: the
entry without `name`, or no entry when nothing else was in it. -/
def unregisterUI.entry (name : String) : Option (GoMap Bool) → Option (GoMap Bool)
  | none => none
  | some sessions => if (sessions.delete name).len = 0 then none else some (sessions.delete name)

/-- Whether the entry of `n` is empty once `name` is deleted from it: the
test `len(i.us[n]) == 0` of `unregisterUI`. -/
def unregisterUI.emptied (name : String) (us : Subscriptions) (n : String) : Bool :=
  decide (((us.get n).delete name).len = 0)

/-- The loop invariant of `registerUI`: the slice `ns` holds distinct names,
all of them keys of `i.us`. -/
def registerUI.Inv (st : Subscriptions × List String) : Prop :=
  st.2.Nodup ∧ ∀ k, k ∈ st.2 → k ∈ GoMap.keys st.1

/-- Whether the request that carries `b` to the sibling `mw` succeeds: the
sibling is reachable. -/
def WorkerPackage.reaches (ch : WorkerPackage.HTTPClient) (b : MessageJSON)
    (mw : WorkerPackage.worker) : Bool :=
  (WorkerPackage.sendRequestToWorker ch "POST" (mw.addr ++ "/api/messages") b).isNone

/-- The request that carries `b` to the sibling `mw`. -/
def WorkerPackage.requestTo (b : MessageJSON) (mw : WorkerPackage.worker) :
    WorkerPackage.Request :=
  { method := "POST", url := mw.addr ++ "/api/messages", body := b }

/-- Whether an issued request fails. -/
def WorkerPackage.fails (ch : WorkerPackage.HTTPClient) (r : WorkerPackage.Request) : Bool :=
  (WorkerPackage.sendRequestToWorker ch r.method r.url r.body).isSome

/-- A call of the index on its subscription index. -/
inductive IndexCall where
  | register (m : Message)
  | unregister (m : Message)

/-- The subscription index after one call. -/
def IndexCall.apply (us : Subscriptions) : IndexCall → Subscriptions
  | IndexCall.register m => (registerUI us m).us
  | IndexCall.unregister m => (unregisterUI us m).us

/-- The subscription index after a sequence of calls. -/
def runCalls (us : Subscriptions) (calls : List IndexCall) : Subscriptions :=
  calls.foldl IndexCall.apply us

/-- Every key of the subscription index has at least one subscriber. -/
def NoEmptyEntry (us : Subscriptions) : Prop :=
  ∀ k, k ∈ GoMap.keys us → subscribers us k ≠ []

/-- What a `types` map becomes through `json.Marshal` then `json.Unmarshal`:
an empty map is left out and comes back nil. -/
def Identifier.afterJSON (i : Identifier) : Identifier :=
  { i with
    Types :=
      match i.Types with
      | some ts => if ts.len = 0 then none else some ts
      | none => none }

/-! ## Concrete inputs -/

/-- A subscription index: "samples" is wanted by u1, "events" by u1 and u2. -/
def exampleIndex : Subscriptions :=
  ((GoMap.make : Subscriptions).set "samples" ((GoMap.make : GoMap Bool).set "u1" true)).set
    "events" (((GoMap.make : GoMap Bool).set "u1" true).set "u2" true)

/-- A message named "samples" addressed to the UI type. -/
def samplesToUI : Message :=
  { From := { Name := some "micro", Typ := WorkerIdentifierType }
    Name := "samples"
    To := some { Typ := UIIdentifierType } }

/-- A message named "samples" addressed to the UI session u2. -/
def samplesToU2 : Message :=
  { From := { Name := some "micro", Typ := WorkerIdentifierType }
    Name := "samples"
    To := some { Name := some "u2", Typ := UIIdentifierType } }

/-- The message with which session u1 subscribes to "samples" and "logs". -/
def registerU1 : Message :=
  { From := { Name := some "u1", Typ := UIIdentifierType }
    Payload := Payload.ui "u1" ["samples", "logs", "samples"]
    To := some { Typ := IndexIdentifierType } }

/-- The message that reports the disconnection of session u1. -/
def disconnectedU1 : Message :=
  { From := NewIndexIdentifier
    Name := "event.ui.disconnected"
    Payload := Payload.name "u1" }

/-- A `sendMessage` that always succeeds. -/
def sendOk : SendMessage :=
  fun _ _ _ => none

/-- Modelled from the spec: an instance of `Identifier.WorkerName()`, the name
of a worker identifier and the owning worker of any other identifier. -/
def exampleWorkerName : WorkerPackage.WorkerNameOf :=
  fun i => if i.Typ = WorkerIdentifierType then i.Name.getD "" else i.Worker.getD ""

/-- An HTTP client for which the sibling at `http://b` refuses the connection
and every other request is answered with status 200. -/
def bUnreachable : WorkerPackage.HTTPClient :=
  { NewRequest := fun _ _ _ => none
    Do := fun _ url _ =>
      if url = "http://b/api/messages" then Except.error "connection refused"
      else Except.ok { StatusCode := 200, Message := "" } }

/-- An HTTP client for which `http.NewRequest` fails, as it does on an address
that is not a URL; `Do` would answer 200. -/
def cannotCreate : WorkerPackage.HTTPClient :=
  { NewRequest := fun _ _ _ => some "parse: invalid character in host name"
    Do := fun _ _ _ => Except.ok { StatusCode := 200, Message := "" } }

/-- The sibling a, at `http://a`. -/
def siblingA : WorkerPackage.worker :=
  { addr := "http://a", name := "a" }

/-- The sibling b, at `http://b`. -/
def siblingB : WorkerPackage.worker :=
  { addr := "http://b", name := "b" }

/-- A sibling table that a `range` loop visits in the order a, b. -/
def siblingsAB : WorkerPackage.Siblings :=
  ((GoMap.make : WorkerPackage.Siblings).set "b" siblingB).set "a" siblingA

/-- A sibling table that a `range` loop visits in the order b, a. -/
def siblingsBA : WorkerPackage.Siblings :=
  ((GoMap.make : WorkerPackage.Siblings).set "a" siblingA).set "b" siblingB

/-- A message of the worker "me" addressed to every worker. -/
def broadcastFromMe : Message :=
  { From := { Name := some "me", Typ := WorkerIdentifierType }
    Name := "event.ability.started"
    To := some { Typ := WorkerIdentifierType } }

/-- A message of the worker "me" addressed to the worker a. -/
def fromMeToA : Message :=
  { From := { Name := some "me", Typ := WorkerIdentifierType }
    Name := "event.ability.started"
    To := some { Name := some "a", Typ := WorkerIdentifierType } }

/-- A message of the worker "me" addressed to the worker a, whose payload is
not JSON. -/
def malformedFromMeToA : Message :=
  { From := { Name := some "me", Typ := WorkerIdentifierType }
    Name := "event.ability.started"
    Payload := Payload.malformed
    To := some { Name := some "a", Typ := WorkerIdentifierType } }

/-- A message of the worker "me" addressed to itself. -/
def fromMeToMe : Message :=
  { From := { Name := some "me", Typ := WorkerIdentifierType }
    Name := "event.ability.started"
    To := some { Name := some "me", Typ := WorkerIdentifierType } }

/-- A message of the worker "me" with no `To`. -/
def fromMeNoTo : Message :=
  { From := { Name := some "me", Typ := WorkerIdentifierType }
    Name := "event.ability.started" }

/-- A message of the worker "me" for the UI, named "samples". -/
def samplesFromMe : Message :=
  { From := { Name := some "me", Typ := WorkerIdentifierType }
    Name := "samples"
    To := some { Typ := UIIdentifierType } }

/-- A wanted-by-UI table that holds "samples". -/
def wantedSamples : GoMap Bool :=
  (GoMap.make : GoMap Bool).set "samples" true

/-- A `WriteJSON` that always succeeds. -/
def writeOk : Message → Option String :=
  fun _ => none

/-- The message with which a sender named u1 subscribes the session u2 to
"samples". -/
def registerU2AsU1 : Message :=
  { From := { Name := some "u1", Typ := UIIdentifierType }
    Payload := Payload.ui "u2" ["samples"]
    To := some { Typ := IndexIdentifierType } }

/-- A message whose `To` carries an empty, non-nil `Types` map. -/
def toEmptyTypes : Message :=
  { From := { Name := some "me", Typ := WorkerIdentifierType }
    Name := "event.ability.started"
    To := some { Types := some GoMap.make } }

/-- A message as a UI client may write it: the bytes of the payload carry
white space between the tokens. -/
def spacedPayload : Message :=
  { From := { Name := some "u1", Typ := UIIdentifierType }
    Name := "samples"
    Payload := Payload.names ["a", "b"]
    To := some { Typ := WorkerIdentifierType }
    PayloadSpelling := Spelling.other }

/-- A worker with one ability. -/
def workerMicro : Worker :=
  { Abilities := [{ Metadata := { Description := "repeats", Name := "echo" }, Status := "stopped" }]
    Addr := "http://micro"
    Name := "micro" }

/-- A runnable of the worker "micro", as the `To` of a command. -/
def echoOfMicro : Identifier :=
  { Name := some "echo", Typ := RunnableIdentifierType, Worker := some "micro" }

/-! ## Facts about Go maps -/

theorem GoMap.has_iff_mem_keys {V : Type} (m : GoMap V) (k : String) :
    m.has k = true ↔ k ∈ m.keys := by
  unfold GoMap.has GoMap.keys
  rw [AList.lookup_isSome, AList.mem_keys]

theorem GoMap.has_eq_false_iff {V : Type} (m : GoMap V) (k : String) :
    m.has k = false ↔ k ∉ m.keys := by
  rw [← GoMap.has_iff_mem_keys]
  cases m.has k <;> simp

/-! ## Identifier.match -/

theorem Identifier.matchIdentifier_eq (o i : Identifier) :
    o.matchIdentifier i = (o.checkType i && o.checkName i && o.checkWorker i) := by
  unfold Identifier.matchIdentifier
  cases o.checkType i <;> cases o.checkName i <;> cases o.checkWorker i <;> rfl

theorem Identifier.checkName_iff (o i : Identifier) :
    o.checkName i = true ↔ ∀ n, o.Name = some n → i.Name = some n := by
  unfold Identifier.checkName
  cases ho : o.Name with
  | none => simp
  | some a =>
    cases hi : i.Name with
    | none => simp
    | some b =>
      simp only [decide_eq_true_eq, Option.some.injEq]
      constructor
      · intro h n hn
        rw [← hn, h]
      · intro h
        exact (h a rfl).symm

theorem Identifier.checkWorker_iff (o i : Identifier) :
    o.checkWorker i = true ↔ ∀ w, o.Worker = some w → i.Worker = some w := by
  unfold Identifier.checkWorker
  cases ho : o.Worker with
  | none => simp
  | some a =>
    cases hi : i.Worker with
    | none => simp
    | some b =>
      simp only [decide_eq_true_eq, Option.some.injEq]
      constructor
      · intro h n hn
        rw [← hn, h]
      · intro h
        exact (h a rfl).symm

/-- C1, as stated, fails: the filter with every field unset does not match the
candidate `{Type: "worker"}`, because the empty `Type` of the filter is
compared with the `Type` of the candidate like any other value. -/
theorem C1_unset_filter_rejects_worker :
    Identifier.matchIdentifier
      { Name := none, Typ := "", Types := none, Worker := none }
      { Typ := WorkerIdentifierType } = false := by
  decide

/-- C1, amended: `Identifier.match` on a filter whose fields are all unset
returns true exactly for the candidates whose type is unset as well, that is
`c.Type` is empty when `c.Types` is nil, or `c.Types` holds the empty string
as a key; the `Name` and `Worker` of the candidate play no part. -/
theorem C1_unset_filter_matches_iff (c : Identifier) :
    Identifier.matchIdentifier
        { Name := none, Typ := "", Types := none, Worker := none } c = true ↔
      (c.Types = none ∧ c.Typ = "") ∨ (∃ ts, c.Types = some ts ∧ "" ∈ GoMap.keys ts) := by
  rw [Identifier.matchIdentifier_eq]
  simp only [Identifier.checkType, Identifier.checkName, Identifier.checkWorker,
    Bool.and_true]
  cases hc : c.Types with
  | none =>
    have h : ¬ ∃ ts : GoMap Bool, (none : Option (GoMap Bool)) = some ts ∧ "" ∈ GoMap.keys ts := by
      rintro ⟨ts, h, _⟩
      cases h
    simp only [decide_eq_true_eq, true_and, h, or_false]
    exact eq_comm
  | some ts =>
    simp only [GoMap.has_iff_mem_keys, false_and, Option.some.injEq, exists_eq_left', false_or,
      reduceCtorEq]

/-- C2: a filter whose `Name` is set rejects every candidate whose `Name` is
unset or different, whatever the `Type`, `Types` and `Worker` of either. -/
theorem C2_name_mismatch_rejects (f c : Identifier) (n : String)
    (hf : f.Name = some n) (hc : c.Name ≠ some n) :
    f.matchIdentifier c = false := by
  have hname : f.checkName c = false := by
    cases h : f.checkName c with
    | false => rfl
    | true => exact absurd ((Identifier.checkName_iff f c).1 h n hf) hc
  rw [Identifier.matchIdentifier_eq, hname]
  simp

theorem C2_name_mismatch_rejects_witness :
    (({ Name := some "a", Typ := "ui" } : Identifier).Name = some "a" ∧
      ({ Name := some "b", Typ := "ui" } : Identifier).Name ≠ some "a") ∧
    Identifier.matchIdentifier { Name := some "a", Typ := "ui" }
      { Name := some "b", Typ := "ui" } = false :=
  ⟨⟨rfl, by decide⟩,
    C2_name_mismatch_rejects { Name := some "a", Typ := "ui" } { Name := some "b", Typ := "ui" }
      "a" rfl (by decide)⟩

/-- C3: for a filter with `Types` set and `Name` and `Worker` unset, a
candidate with `Types` set matches exactly when some type is a key of both
maps, and a candidate with `Types` unset matches exactly when its `Type` is a
key of the filter's `Types`. -/
theorem C3_filter_types (f c : Identifier) (ft : GoMap Bool)
    (hT : f.Types = some ft) (hN : f.Name = none) (hW : f.Worker = none) :
    (∀ ct, c.Types = some ct →
        (f.matchIdentifier c = true ↔ ∃ t, t ∈ GoMap.keys ft ∧ t ∈ GoMap.keys ct)) ∧
      (c.Types = none → (f.matchIdentifier c = true ↔ c.Typ ∈ GoMap.keys ft)) := by
  have hm : f.matchIdentifier c = f.checkType c := by
    rw [Identifier.matchIdentifier_eq]
    simp [Identifier.checkName, Identifier.checkWorker, hN, hW]
  rw [hm]
  constructor
  · intro ct hct
    simp only [Identifier.checkType, hT, hct, List.any_eq_true, GoMap.has_iff_mem_keys]
    constructor
    · rintro ⟨t, h1, h2⟩
      exact ⟨t, h2, h1⟩
    · rintro ⟨t, h1, h2⟩
      exact ⟨t, h2, h1⟩
  · intro hct
    simp only [Identifier.checkType, hT, hct, GoMap.has_iff_mem_keys]

theorem C3_filter_types_witness :
    (∀ ct, ({ Typ := "worker" } : Identifier).Types = some ct →
        (Identifier.matchIdentifier
            { Types := some ((GoMap.make.set "runnable" true).set "worker" true) }
            { Typ := "worker" } = true ↔
          ∃ t, t ∈ GoMap.keys ((GoMap.make.set "runnable" true).set "worker" true) ∧
            t ∈ GoMap.keys ct)) ∧
      (({ Typ := "worker" } : Identifier).Types = none →
        (Identifier.matchIdentifier
            { Types := some ((GoMap.make.set "runnable" true).set "worker" true) }
            { Typ := "worker" } = true ↔
          ({ Typ := "worker" } : Identifier).Typ ∈
            GoMap.keys ((GoMap.make.set "runnable" true).set "worker" true))) :=
  C3_filter_types { Types := some ((GoMap.make.set "runnable" true).set "worker" true) }
    { Typ := "worker" } ((GoMap.make.set "runnable" true).set "worker" true) rfl rfl rfl

/-- C4: for a filter with `Types`, `Name` and `Worker` unset, a candidate with
`Types` set matches exactly when the filter's `Type` is a key of it, and a
candidate with `Types` unset matches exactly when the two `Type` are equal. -/
theorem C4_filter_single_type (f c : Identifier)
    (hT : f.Types = none) (hN : f.Name = none) (hW : f.Worker = none) :
    (∀ ct, c.Types = some ct → (f.matchIdentifier c = true ↔ f.Typ ∈ GoMap.keys ct)) ∧
      (c.Types = none → (f.matchIdentifier c = true ↔ f.Typ = c.Typ)) := by
  have hm : f.matchIdentifier c = f.checkType c := by
    rw [Identifier.matchIdentifier_eq]
    simp [Identifier.checkName, Identifier.checkWorker, hN, hW]
  rw [hm]
  constructor
  · intro ct hct
    simp only [Identifier.checkType, hT, hct, GoMap.has_iff_mem_keys]
  · intro hct
    simp only [Identifier.checkType, hT, hct, decide_eq_true_eq]

theorem C4_filter_single_type_witness :
    (∀ ct, ({ Types := some (GoMap.make.set "ui" true) } : Identifier).Types = some ct →
        (Identifier.matchIdentifier { Typ := "ui" }
            { Types := some (GoMap.make.set "ui" true) } = true ↔
          ({ Typ := "ui" } : Identifier).Typ ∈ GoMap.keys ct)) ∧
      (({ Types := some (GoMap.make.set "ui" true) } : Identifier).Types = none →
        (Identifier.matchIdentifier { Typ := "ui" }
            { Types := some (GoMap.make.set "ui" true) } = true ↔
          ({ Typ := "ui" } : Identifier).Typ =
            ({ Types := some (GoMap.make.set "ui" true) } : Identifier).Typ)) :=
  C4_filter_single_type { Typ := "ui" } { Types := some (GoMap.make.set "ui" true) } rfl rfl rfl

/-- C5: when the filter's `Worker` is set, a match implies that the
candidate's `Worker` is set and equal to it; and when the type and name
checks pass and the candidate's `Worker` equals the filter's, the match
succeeds. -/
theorem C5_worker_check (f c : Identifier) (w : String) (hW : f.Worker = some w) :
    (f.matchIdentifier c = true → c.Worker = some w) ∧
      (f.checkType c = true → f.checkName c = true → c.Worker = some w →
        f.matchIdentifier c = true) := by
  rw [Identifier.matchIdentifier_eq]
  constructor
  · intro h
    simp only [Bool.and_eq_true] at h
    exact (Identifier.checkWorker_iff f c).1 h.2 w hW
  · intro ht hn hc
    have hw : f.checkWorker c = true := by
      rw [Identifier.checkWorker_iff]
      intro w1 hw1
      rw [hW] at hw1
      rw [hc, ← hw1]
    rw [ht, hn, hw]
    rfl

theorem C5_worker_check_witness :
    ({ Typ := "runnable", Worker := some "micro" } : Identifier).Worker = some "micro" ∧
    ((Identifier.matchIdentifier { Typ := "runnable", Worker := some "micro" }
          { Name := some "echo", Typ := "runnable", Worker := some "micro" } = true →
        ({ Name := some "echo", Typ := "runnable", Worker := some "micro" } : Identifier).Worker
          = some "micro") ∧
      (Identifier.checkType { Typ := "runnable", Worker := some "micro" }
          { Name := some "echo", Typ := "runnable", Worker := some "micro" } = true →
        Identifier.checkName { Typ := "runnable", Worker := some "micro" }
          { Name := some "echo", Typ := "runnable", Worker := some "micro" } = true →
        ({ Name := some "echo", Typ := "runnable", Worker := some "micro" } : Identifier).Worker
          = some "micro" →
        Identifier.matchIdentifier { Typ := "runnable", Worker := some "micro" }
          { Name := some "echo", Typ := "runnable", Worker := some "micro" } = true)) :=
  ⟨rfl, C5_worker_check { Typ := "runnable", Worker := some "micro" }
    { Name := some "echo", Typ := "runnable", Worker := some "micro" } "micro" rfl⟩

/-! ## Facts about the loops of index/ui.go -/

theorem GoMap.get_eq_of_lookup {V : Type} (m : GoMap (GoMap V)) (k : String) (v : GoMap V)
    (h : AList.lookup k m = some v) : m.get k = v := by
  simp [GoMap.get, h]

theorem GoMap.get_eq_make_of_lookup {V : Type} (m : GoMap (GoMap V)) (k : String)
    (h : AList.lookup k m = none) : m.get k = GoMap.make := by
  simp [GoMap.get, h]

theorem GoMap.mem_keys_iff_lookup {V : Type} (m : GoMap V) (k : String) :
    k ∈ m.keys ↔ ∃ v, AList.lookup k m = some v := by
  rw [← GoMap.has_iff_mem_keys, GoMap.has, Option.isSome_iff_exists]

theorem GoMap.len_make_delete {V : Type} (k : String) :
    ((GoMap.make : GoMap V).delete k).len = 0 := by
  simp [GoMap.len, GoMap.make, GoMap.delete]

theorem unregisterUI_step_none (name : String) (st : Subscriptions × List String) (a : String)
    (h : AList.lookup a st.1 = none) :
    unregisterUI.step name st a = (st.1.delete a, st.2 ++ [a]) := by
  have hg : (GoMap.get st.1 a).len = 0 := by
    rw [GoMap.get_eq_make_of_lookup _ _ h]
    rfl
  simp only [unregisterUI.step, h, hg, if_true]

theorem unregisterUI_step_some (name : String) (st : Subscriptions × List String) (a : String)
    (sessions : GoMap Bool) (h : AList.lookup a st.1 = some sessions) :
    unregisterUI.step name st a =
      if (sessions.delete name).len = 0
      then ((st.1.set a (sessions.delete name)).delete a, st.2 ++ [a])
      else (st.1.set a (sessions.delete name), st.2) := by
  have hg : (GoMap.set st.1 a (sessions.delete name)).get a = sessions.delete name :=
    GoMap.get_eq_of_lookup _ _ _ (AList.lookup_insert _)
  simp only [unregisterUI.step, h, hg]

theorem unregisterUI_step_lookup (name : String) (st : Subscriptions × List String)
    (a n : String) :
    AList.lookup n (unregisterUI.step name st a).1 =
      if n = a then unregisterUI.entry name (AList.lookup a st.1) else AList.lookup n st.1 := by
  cases h : AList.lookup a st.1 with
  | none =>
    rw [unregisterUI_step_none name st a h]
    by_cases hna : n = a
    · subst hna
      simp only [if_true, unregisterUI.entry]
      exact AList.lookup_erase _ _
    · simp only [hna, if_false]
      exact AList.lookup_erase_ne hna
  | some sessions =>
    rw [unregisterUI_step_some name st a sessions h]
    by_cases hl : (sessions.delete name).len = 0
    · simp only [hl, if_true, unregisterUI.entry]
      by_cases hna : n = a
      · subst hna
        simp only [if_true]
        exact AList.lookup_erase _ _
      · simp only [hna, if_false]
        exact (AList.lookup_erase_ne hna).trans (AList.lookup_insert_ne hna)
    · simp only [hl, if_false, unregisterUI.entry]
      by_cases hna : n = a
      · subst hna
        simp only [if_true]
        exact AList.lookup_insert _
      · simp only [hna, if_false]
        exact AList.lookup_insert_ne hna

theorem unregisterUI_step_names (name : String) (st : Subscriptions × List String)
    (a : String) :
    (unregisterUI.step name st a).2 =
      st.2 ++ (if unregisterUI.emptied name st.1 a = true then [a] else []) := by
  cases h : AList.lookup a st.1 with
  | none =>
    rw [unregisterUI_step_none name st a h]
    have he : unregisterUI.emptied name st.1 a = true := by
      simp only [unregisterUI.emptied, GoMap.get_eq_make_of_lookup _ _ h, decide_eq_true_eq]
      exact GoMap.len_make_delete name
    simp only [he, if_true]
  | some sessions =>
    rw [unregisterUI_step_some name st a sessions h]
    simp only [unregisterUI.emptied, GoMap.get_eq_of_lookup _ _ _ h, decide_eq_true_eq]
    by_cases hl : (sessions.delete name).len = 0
    · simp only [hl, if_true]
    · simp only [hl, if_false, List.append_nil]

theorem unregisterUI_emptied_congr (name : String) (us us2 : Subscriptions) (n : String)
    (h : AList.lookup n us = AList.lookup n us2) :
    unregisterUI.emptied name us n = unregisterUI.emptied name us2 n := by
  simp only [unregisterUI.emptied, GoMap.get, h]

theorem unregisterUI_fold (name : String) (l : List String) (hnd : l.Nodup) :
    ∀ st : Subscriptions × List String,
      (∀ n, AList.lookup n (l.foldl (unregisterUI.step name) st).1 =
          if n ∈ l then unregisterUI.entry name (AList.lookup n st.1) else AList.lookup n st.1) ∧
        (l.foldl (unregisterUI.step name) st).2 =
          st.2 ++ l.filter (unregisterUI.emptied name st.1) := by
  induction l with
  | nil =>
    intro st
    simp
  | cons a t ih =>
    intro st
    have hat : a ∉ t := (List.nodup_cons.1 hnd).1
    obtain ⟨ih1, ih2⟩ := ih (List.nodup_cons.1 hnd).2 (unregisterUI.step name st a)
    simp only [List.foldl_cons]
    constructor
    · intro n
      rw [ih1 n, unregisterUI_step_lookup]
      by_cases hna : n = a
      · subst hna
        simp [hat]
      · by_cases hnt : n ∈ t
        · simp [hna, hnt]
        · simp [hna, hnt]
    · rw [ih2, unregisterUI_step_names, List.append_assoc]
      congr 1
      have hf : t.filter (unregisterUI.emptied name (unregisterUI.step name st a).1) =
          t.filter (unregisterUI.emptied name st.1) := by
        apply List.filter_congr
        intro n hn
        apply unregisterUI_emptied_congr
        rw [unregisterUI_step_lookup]
        have hna : n ≠ a := fun h => hat (h ▸ hn)
        simp [hna]
      rw [hf, List.filter_cons]
      by_cases he : unregisterUI.emptied name st.1 a = true
      · simp [he]
      · simp [he]

theorem GoMap.mem_keys_set {V : Type} (m : GoMap V) (k : String) (v : V) (x : String) :
    x ∈ (m.set k v).keys ↔ x = k ∨ x ∈ m.keys := by
  unfold GoMap.set GoMap.keys
  rw [← AList.mem_keys, ← AList.mem_keys, AList.mem_insert]

theorem GoMap.keys_make {V : Type} : (GoMap.make : GoMap V).keys = [] := rfl

theorem GoMap.get_eq_make_of_not_mem {V : Type} (m : GoMap (GoMap V)) (k : String)
    (h : k ∉ m.keys) : m.get k = GoMap.make := by
  apply GoMap.get_eq_make_of_lookup
  rw [AList.lookup_eq_none, AList.mem_keys]
  exact h

theorem registerUI_step_eq (uiName : String) (st : Subscriptions × List String) (a : String) :
    registerUI.step uiName st a =
      (st.1.set a ((st.1.get a).set uiName true),
        st.2 ++ (if st.1.has a = true then [] else [a])) := by
  unfold registerUI.step
  cases h : st.1.has a with
  | true => simp
  | false =>
    have hl : AList.lookup a st.1 = none := by
      simpa [GoMap.has] using h
    have hg : (GoMap.set st.1 a GoMap.make).get a = (GoMap.make : GoMap Bool) :=
      GoMap.get_eq_of_lookup _ _ _ (AList.lookup_insert _)
    have hg2 : st.1.get a = (GoMap.make : GoMap Bool) := GoMap.get_eq_make_of_lookup _ _ hl
    simp only [Bool.not_false, if_true, hg, hg2, Bool.false_eq_true, if_false]
    congr 1
    exact AList.insert_insert _

theorem registerUI_step_lookup (uiName : String) (st : Subscriptions × List String)
    (a k : String) :
    AList.lookup k (registerUI.step uiName st a).1 =
      if k = a then some ((st.1.get a).set uiName true) else AList.lookup k st.1 := by
  rw [registerUI_step_eq]
  by_cases hka : k = a
  · subst hka
    simp only [if_true]
    exact AList.lookup_insert _
  · simp only [hka, if_false]
    exact AList.lookup_insert_ne hka

theorem registerUI_step_keys (uiName : String) (st : Subscriptions × List String)
    (a k : String) :
    k ∈ GoMap.keys (registerUI.step uiName st a).1 ↔ k ∈ GoMap.keys st.1 ∨ k = a := by
  rw [registerUI_step_eq, GoMap.mem_keys_set]
  exact or_comm

theorem registerUI_step_subscribers (uiName : String) (st : Subscriptions × List String)
    (a k x : String) :
    x ∈ subscribers (registerUI.step uiName st a).1 k ↔
      x ∈ subscribers st.1 k ∨ (x = uiName ∧ k = a) := by
  unfold subscribers
  by_cases hka : k = a
  · subst hka
    have hl := registerUI_step_lookup uiName st k k
    simp only [if_true] at hl
    rw [GoMap.get_eq_of_lookup _ _ _ hl, GoMap.mem_keys_set]
    simp [or_comm]
  · have hl := registerUI_step_lookup uiName st a k
    simp only [hka, if_false] at hl
    have hg : GoMap.get (registerUI.step uiName st a).1 k = GoMap.get st.1 k := by
      simp only [GoMap.get, hl]
    rw [hg]
    simp [hka]

theorem registerUI_step_names (uiName : String) (st : Subscriptions × List String)
    (a k : String) :
    k ∈ (registerUI.step uiName st a).2 ↔ k ∈ st.2 ∨ (k = a ∧ a ∉ GoMap.keys st.1) := by
  rw [registerUI_step_eq]
  simp only [List.mem_append]
  cases h : st.1.has a with
  | true =>
    have := (GoMap.has_iff_mem_keys st.1 a).1 h
    simp [this]
  | false =>
    have := (GoMap.has_eq_false_iff st.1 a).1 h
    simp [this]

theorem registerUI_step_inv (uiName : String) (st : Subscriptions × List String) (a : String)
    (h : registerUI.Inv st) : registerUI.Inv (registerUI.step uiName st a) := by
  obtain ⟨hnd, hsub⟩ := h
  constructor
  · rw [registerUI_step_eq]
    cases hh : st.1.has a with
    | true => simpa using hnd
    | false =>
      have hna := (GoMap.has_eq_false_iff st.1 a).1 hh
      simp only [Bool.false_eq_true, if_false]
      rw [List.nodup_append]
      refine ⟨hnd, List.nodup_singleton a, ?_⟩
      intro x hx hxa
      rw [List.mem_singleton] at hxa
      subst hxa
      exact hna (hsub x hx)
  · intro k hk
    rw [registerUI_step_keys]
    rcases (registerUI_step_names uiName st a k).1 hk with h1 | h2
    · exact Or.inl (hsub k h1)
    · exact Or.inr h2.1

theorem registerUI_fold (uiName : String) (l : List String) :
    ∀ st : Subscriptions × List String,
      (∀ k, k ∈ GoMap.keys (l.foldl (registerUI.step uiName) st).1 ↔
          k ∈ GoMap.keys st.1 ∨ k ∈ l) ∧
      (∀ k x, x ∈ subscribers (l.foldl (registerUI.step uiName) st).1 k ↔
          x ∈ subscribers st.1 k ∨ (x = uiName ∧ k ∈ l)) ∧
      (∀ k, k ∈ (l.foldl (registerUI.step uiName) st).2 ↔
          k ∈ st.2 ∨ (k ∈ l ∧ k ∉ GoMap.keys st.1)) ∧
      (registerUI.Inv st → registerUI.Inv (l.foldl (registerUI.step uiName) st)) := by
  induction l with
  | nil =>
    intro st
    simp
  | cons a t ih =>
    intro st
    obtain ⟨ih1, ih2, ih3, ih4⟩ := ih (registerUI.step uiName st a)
    simp only [List.foldl_cons, List.mem_cons]
    refine ⟨?_, ?_, ?_, ?_⟩
    · intro k
      rw [ih1 k, registerUI_step_keys]
      tauto
    · intro k x
      rw [ih2 k x, registerUI_step_subscribers]
      tauto
    · intro k
      rw [ih3 k, registerUI_step_names, registerUI_step_keys]
      constructor
      · rintro ((h | ⟨h1, h2⟩) | ⟨h1, h2⟩)
        · exact Or.inl h
        · exact Or.inr ⟨Or.inl h1, h1 ▸ h2⟩
        · exact Or.inr ⟨Or.inr h1, fun h => h2 (Or.inl h)⟩
      · rintro (h | ⟨h1 | h1, h2⟩)
        · exact Or.inl (Or.inl h)
        · exact Or.inl (Or.inr ⟨h1, h1 ▸ h2⟩)
        · by_cases hka : k = a
          · exact Or.inl (Or.inr ⟨hka, hka ▸ h2⟩)
          · exact Or.inr ⟨h1, fun h => h.elim h2 hka⟩
    · intro h
      exact ih4 (registerUI_step_inv uiName st a h)

/-! ## Index.sendMessageToUI -/

theorem sendMessageToUI_of_entry (send : SendMessage) (us : Subscriptions) (m : Message)
    (to_ : Identifier) (hTo : m.To = some to_) (hN : to_.Name = none)
    (hk : m.Name ∈ GoMap.keys us) :
    sendMessageToUI send us m =
      { sent := some (subscribers us m.Name)
        err := (send m "ui" (subscribers us m.Name)).map
          (fun e => wrap e "index: sending message failed") } := by
  obtain ⟨sessions, hs⟩ := (GoMap.mem_keys_iff_lookup us m.Name).1 hk
  simp only [sendMessageToUI, hTo, hN, hs, subscribers, GoMap.get_eq_of_lookup _ _ _ hs]

theorem sendMessageToUI_of_no_entry (send : SendMessage) (us : Subscriptions) (m : Message)
    (to_ : Identifier) (hTo : m.To = some to_) (hN : to_.Name = none)
    (hk : m.Name ∉ GoMap.keys us) :
    sendMessageToUI send us m = { sent := none, err := none } := by
  have hs : AList.lookup m.Name us = none := by
    rw [AList.lookup_eq_none, AList.mem_keys]
    exact hk
  simp only [sendMessageToUI, hTo, hN, hs]

theorem subscribers_of_not_mem (us : Subscriptions) (n : String) (h : n ∉ GoMap.keys us) :
    subscribers us n = [] := by
  unfold subscribers
  rw [GoMap.get_eq_make_of_not_mem us n h]
  rfl

theorem mem_keys_of_subscribers_ne_nil (us : Subscriptions) (n : String)
    (h : subscribers us n ≠ []) : n ∈ GoMap.keys us := by
  by_contra hn
  exact h (subscribers_of_not_mem us n hn)


/-- C7: for a message whose `To` carries a `Name` n, the names handed to
`sendMessage` are exactly the one name n, and the outcome is the same
whatever the subscription index holds. -/
theorem C7_sendMessageToUI_named_target (send : SendMessage) (us : Subscriptions) (m : Message)
    (to_ : Identifier) (n : String) (hTo : m.To = some to_) (hN : to_.Name = some n) :
    (sendMessageToUI send us m).sent = some [n] ∧
      ∀ us2 : Subscriptions, sendMessageToUI send us2 m = sendMessageToUI send us m := by
  constructor
  · simp only [sendMessageToUI, hTo, hN]
  · intro us2
    simp only [sendMessageToUI, hTo, hN]

theorem C7_sendMessageToUI_named_target_witness :
    (samplesToU2.To = some { Name := some "u2", Typ := UIIdentifierType } ∧
      ({ Name := some "u2", Typ := UIIdentifierType } : Identifier).Name = some "u2") ∧
    ((sendMessageToUI sendOk exampleIndex samplesToU2).sent = some ["u2"] ∧
      ∀ us2 : Subscriptions,
        sendMessageToUI sendOk us2 samplesToU2 = sendMessageToUI sendOk exampleIndex samplesToU2) :=
  ⟨⟨rfl, rfl⟩,
    C7_sendMessageToUI_named_target sendOk exampleIndex samplesToU2
      { Name := some "u2", Typ := UIIdentifierType } "u2" rfl rfl⟩

/-! ## Index.registerUI -/

theorem registerUI_of_parsed (us : Subscriptions) (m : Message) (x : String) (u : UI)
    (hfrom : m.From.Name = some x) (hparse : ParseUIRegisterPayload m = Except.ok u) :
    registerUI us m =
      { us := (u.MessageNames.foldl (registerUI.step u.Name) (us, [])).1
        dispatched :=
          [{ From := NewIndexIdentifier
             Name := UIMessageNamesAddMessage
             Payload := Payload.names (u.MessageNames.foldl (registerUI.step u.Name) (us, [])).2
             To := some { Typ := WorkerIdentifierType } }]
        unregistered := []
        err := none } := by
  simp only [registerUI, hfrom, hparse, NewUIMessageNamesAddMessage, newMessage]

theorem registerUI_from_of_success (us : Subscriptions) (m : Message)
    (hok : (registerUI us m).err = none) : ∃ x, m.From.Name = some x := by
  cases h : m.From.Name with
  | some x => exact ⟨x, rfl⟩
  | none =>
    simp only [registerUI, h] at hok
    cases hok

theorem registerUI_subscribers (us : Subscriptions) (m : Message) (x : String) (u : UI)
    (hfrom : m.From.Name = some x) (hparse : ParseUIRegisterPayload m = Except.ok u)
    (k s : String) :
    s ∈ subscribers (registerUI us m).us k ↔
      s ∈ subscribers us k ∨ (s = u.Name ∧ k ∈ u.MessageNames) := by
  rw [registerUI_of_parsed us m x u hfrom hparse]
  exact (registerUI_fold u.Name u.MessageNames (us, [])).2.1 k s

theorem registerUI_announces_new_keys (us : Subscriptions) (m : Message) (u : UI)
    (hparse : ParseUIRegisterPayload m = Except.ok u) (hok : (registerUI us m).err = none) :
    ∃ msg : Message,
      (registerUI us m).dispatched = [msg] ∧
      msg.Name = UIMessageNamesAddMessage ∧
      msg.To = some { Typ := WorkerIdentifierType } ∧
      msg.names.Nodup ∧
      (∀ n, n ∈ msg.names ↔ n ∈ u.MessageNames ∧ n ∉ GoMap.keys us) ∧
      (∀ n, subscribers us n ≠ [] → n ∉ msg.names) ∧
      ((∀ k, k ∈ GoMap.keys us → subscribers us k ≠ []) →
        ∀ n, n ∈ msg.names ↔ n ∈ u.MessageNames ∧ subscribers us n = []) := by
  obtain ⟨x, hfrom⟩ := registerUI_from_of_success us m hok
  obtain ⟨-, -, h3, h4⟩ := registerUI_fold u.Name u.MessageNames (us, [])
  have hmem : ∀ n, n ∈ (u.MessageNames.foldl (registerUI.step u.Name) (us, [])).2 ↔
      n ∈ u.MessageNames ∧ n ∉ GoMap.keys us := by
    intro n
    rw [h3 n]
    simp
  rw [registerUI_of_parsed us m x u hfrom hparse]
  refine ⟨_, rfl, rfl, rfl, ?_, ?_, ?_, ?_⟩
  · exact (h4 ⟨List.nodup_nil, fun k hk => absurd hk (List.not_mem_nil k)⟩).1
  · exact hmem
  · intro n hn hmem2
    exact ((hmem n).1 hmem2).2 (mem_keys_of_subscribers_ne_nil us n hn)
  · intro hinv n
    show n ∈ (u.MessageNames.foldl (registerUI.step u.Name) (us, [])).2 ↔ _
    rw [hmem n]
    constructor
    · rintro ⟨h1, h2⟩
      exact ⟨h1, subscribers_of_not_mem us n h2⟩
    · rintro ⟨h1, h2⟩
      exact ⟨h1, fun hk => hinv n hk h2⟩

/-! ## Index.unregisterUI -/

theorem unregisterUI_of_parsed (us : Subscriptions) (m : Message) (s : String)
    (hparse : ParseUIDisconnectedPayload m = Except.ok s) :
    unregisterUI us m =
      { us := (us.keys.foldl (unregisterUI.step s) (us, [])).1
        dispatched :=
          [{ From := NewIndexIdentifier
             Name := UIMessageNamesDeleteMessage
             Payload := Payload.names (us.keys.foldl (unregisterUI.step s) (us, [])).2
             To := some { Typ := WorkerIdentifierType } }]
        unregistered := [s]
        err := none } := by
  simp only [unregisterUI, hparse, NewUIMessageNamesDeleteMessage, newMessage]

theorem unregisterUI_lookup (us : Subscriptions) (m : Message) (s : String)
    (hparse : ParseUIDisconnectedPayload m = Except.ok s) (n : String) :
    AList.lookup n (unregisterUI us m).us = unregisterUI.entry s (AList.lookup n us) := by
  rw [unregisterUI_of_parsed us m s hparse]
  have h := (unregisterUI_fold s us.keys (AList.keys_nodup us) (us, [])).1 n
  simp only at h
  rw [h]
  by_cases hn : n ∈ GoMap.keys us
  · simp [hn]
  · have hl : AList.lookup n us = none := by
      rw [AList.lookup_eq_none, AList.mem_keys]
      exact hn
    simp [hn, hl, unregisterUI.entry]

theorem unregisterUI_emptied_iff (s : String) (us : Subscriptions) (n : String) :
    unregisterUI.emptied s us n = true ↔ (subscribers us n).erase s = [] := by
  simp only [unregisterUI.emptied, decide_eq_true_eq, GoMap.len, GoMap.delete, subscribers,
    GoMap.keys, AList.keys_erase, List.length_eq_zero]

theorem eq_singleton_of_erase_eq_nil (l : List String) (s : String) (hne : l ≠ [])
    (h : l.erase s = []) : l = [s] := by
  cases l with
  | nil => exact absurd rfl hne
  | cons x t =>
    by_cases hx : x = s
    · subst hx
      rw [List.erase_cons_head] at h
      rw [h]
    · rw [List.erase_cons_tail (by simpa using hx)] at h
      cases h

/-- C9: when every name of `us` has at least one subscriber, `unregisterUI(s)`
dispatches to the workers one `ui.message_names.delete` message whose names,
each listed once, are exactly the names whose only subscriber was s; a name
that another session still subscribes to stays a key of `us` and is not
listed. -/
theorem C9_unregisterUI_announces_orphans (us : Subscriptions) (m : Message) (s : String)
    (hinv : ∀ k, k ∈ GoMap.keys us → subscribers us k ≠ [])
    (hparse : ParseUIDisconnectedPayload m = Except.ok s) :
    ∃ msg : Message,
      (unregisterUI us m).dispatched = [msg] ∧
      msg.Name = UIMessageNamesDeleteMessage ∧
      msg.To = some { Typ := WorkerIdentifierType } ∧
      msg.names.Nodup ∧
      (∀ n, n ∈ msg.names ↔ subscribers us n = [s]) ∧
      (∀ n t, t ∈ subscribers us n → t ≠ s →
        n ∈ GoMap.keys (unregisterUI us m).us ∧ n ∉ msg.names) := by
  have hus := unregisterUI_lookup us m s hparse
  have hns := (unregisterUI_fold s us.keys (AList.keys_nodup us) (us, [])).2
  simp only [List.nil_append] at hns
  have hmem : ∀ n, n ∈ (us.keys.foldl (unregisterUI.step s) (us, [])).2 ↔
      subscribers us n = [s] := by
    intro n
    rw [hns, List.mem_filter, unregisterUI_emptied_iff]
    constructor
    · rintro ⟨hk, he⟩
      exact eq_singleton_of_erase_eq_nil _ s (hinv n hk) he
    · intro h
      refine ⟨mem_keys_of_subscribers_ne_nil us n (by rw [h]; exact List.cons_ne_nil _ _), ?_⟩
      rw [h]
      simp
  rw [unregisterUI_of_parsed us m s hparse] at hus ⊢
  refine ⟨_, rfl, rfl, rfl, ?_, hmem, ?_⟩
  · show (us.keys.foldl (unregisterUI.step s) (us, [])).2.Nodup
    rw [hns]
    exact (AList.keys_nodup us).filter _
  · intro n t ht hts
    constructor
    · have hk : n ∈ GoMap.keys us :=
        mem_keys_of_subscribers_ne_nil us n (List.ne_nil_of_mem ht)
      obtain ⟨sessions, hl⟩ := (GoMap.mem_keys_iff_lookup us n).1 hk
      rw [GoMap.mem_keys_iff_lookup]
      have hm : t ∈ (sessions.delete s).keys := by
        have : t ∈ sessions.keys := by
          simpa only [subscribers, GoMap.get_eq_of_lookup _ _ _ hl] using ht
        simp only [GoMap.delete, GoMap.keys, AList.keys_erase]
        exact (List.mem_erase_of_ne hts).2 this
      have hlen : (sessions.delete s).len ≠ 0 := by
        simp only [GoMap.len]
        intro h0
        rw [List.length_eq_zero] at h0
        simp only [GoMap.keys] at hm
        rw [h0] at hm
        exact List.not_mem_nil _ hm
      refine ⟨sessions.delete s, ?_⟩
      rw [hus n, hl]
      simp only [unregisterUI.entry, hlen, if_false]
    · show n ∉ (us.keys.foldl (unregisterUI.step s) (us, [])).2
      rw [hmem n]
      intro h
      rw [h, List.mem_singleton] at ht
      exact hts ht

theorem C9_unregisterUI_announces_orphans_witness :
    ((∀ k, k ∈ GoMap.keys exampleIndex → subscribers exampleIndex k ≠ []) ∧
      ParseUIDisconnectedPayload disconnectedU1 = Except.ok "u1") ∧
    ∃ msg : Message,
      (unregisterUI exampleIndex disconnectedU1).dispatched = [msg] ∧
      msg.Name = UIMessageNamesDeleteMessage ∧
      msg.To = some { Typ := WorkerIdentifierType } ∧
      msg.names.Nodup ∧
      (∀ n, n ∈ msg.names ↔ subscribers exampleIndex n = ["u1"]) ∧
      (∀ n t, t ∈ subscribers exampleIndex n → t ≠ "u1" →
        n ∈ GoMap.keys (unregisterUI exampleIndex disconnectedU1).us ∧ n ∉ msg.names) :=
  ⟨⟨by decide, rfl⟩,
    C9_unregisterUI_announces_orphans exampleIndex disconnectedU1 "u1" (by decide) rfl⟩

/-- C10: from any subscription index, once `registerUI` has subscribed session
u to "samples", a message named "samples" whose `To` has no `Name` is handed
to `sendMessage` with u among the names and with no name that is not
subscribed to "samples" (the names are u and the sessions subscribed before);
and once `unregisterUI(u)` has run with u the only subscriber, the same
message reaches `sendMessage` not at all and no error is returned. -/
theorem C10_samples_scenario (send : SendMessage) (us : Subscriptions)
    (reg disc m : Message) (x : String) (u : UI) (to_ : Identifier)
    (hfrom : reg.From.Name = some x) (hreg : ParseUIRegisterPayload reg = Except.ok u)
    (hs : "samples" ∈ u.MessageNames)
    (hm : m.Name = "samples") (hTo : m.To = some to_) (hN : to_.Name = none)
    (hdisc : ParseUIDisconnectedPayload disc = Except.ok u.Name) :
    (∃ rs, (sendMessageToUI send (registerUI us reg).us m).sent = some rs ∧
        u.Name ∈ rs ∧
        (∀ r, r ∈ rs → r ∈ subscribers (registerUI us reg).us "samples") ∧
        (∀ r, r ∈ rs ↔ r = u.Name ∨ r ∈ subscribers us "samples")) ∧
      (subscribers (registerUI us reg).us "samples" = [u.Name] →
        sendMessageToUI send (unregisterUI (registerUI us reg).us disc).us m =
          { sent := none, err := none }) := by
  have hsub := registerUI_subscribers us reg x u hfrom hreg "samples"
  have hu : u.Name ∈ subscribers (registerUI us reg).us "samples" :=
    (hsub u.Name).2 (Or.inr ⟨rfl, hs⟩)
  have hk : m.Name ∈ GoMap.keys (registerUI us reg).us := by
    rw [hm]
    exact mem_keys_of_subscribers_ne_nil _ _ (List.ne_nil_of_mem hu)
  constructor
  · refine ⟨subscribers (registerUI us reg).us "samples", ?_, hu, fun r hr => hr, ?_⟩
    · rw [sendMessageToUI_of_entry send _ m to_ hTo hN hk, hm]
    · intro r
      rw [hsub r]
      constructor
      · rintro (h | ⟨h, -⟩)
        · exact Or.inr h
        · exact Or.inl h
      · rintro (h | h)
        · exact Or.inr ⟨h, hs⟩
        · exact Or.inl h
  · intro hone
    apply sendMessageToUI_of_no_entry send _ m to_ hTo hN
    rw [hm] at hk ⊢
    obtain ⟨sessions, hl⟩ := (GoMap.mem_keys_iff_lookup _ _).1 hk
    have hkeys : sessions.keys = [u.Name] := by
      simpa only [subscribers, GoMap.get_eq_of_lookup _ _ _ hl] using hone
    have hlen : (sessions.delete u.Name).len = 0 := by
      simp only [GoMap.keys] at hkeys
      simp [GoMap.len, GoMap.delete, AList.keys_erase, hkeys]
    have hnone : AList.lookup "samples" (unregisterUI (registerUI us reg).us disc).us = none := by
      rw [unregisterUI_lookup _ disc u.Name hdisc, hl]
      simp only [unregisterUI.entry, hlen, if_true]
    rw [AList.lookup_eq_none, AList.mem_keys] at hnone
    exact hnone

theorem C10_samples_scenario_witness :
    (registerU1.From.Name = some "u1" ∧
      ParseUIRegisterPayload registerU1 =
        Except.ok { MessageNames := ["samples", "logs", "samples"], Name := "u1" } ∧
      "samples" ∈ ({ MessageNames := ["samples", "logs", "samples"], Name := "u1" } : UI).MessageNames ∧
      samplesToUI.Name = "samples" ∧
      samplesToUI.To = some { Typ := UIIdentifierType } ∧
      ({ Typ := UIIdentifierType } : Identifier).Name = none ∧
      ParseUIDisconnectedPayload disconnectedU1 = Except.ok "u1" ∧
      subscribers (registerUI exampleIndex registerU1).us "samples" = ["u1"]) ∧
    ((∃ rs, (sendMessageToUI sendOk (registerUI exampleIndex registerU1).us samplesToUI).sent =
          some rs ∧
        "u1" ∈ rs ∧
        (∀ r, r ∈ rs → r ∈ subscribers (registerUI exampleIndex registerU1).us "samples") ∧
        (∀ r, r ∈ rs ↔ r = "u1" ∨ r ∈ subscribers exampleIndex "samples")) ∧
      (subscribers (registerUI exampleIndex registerU1).us "samples" = ["u1"] →
        sendMessageToUI sendOk
            (unregisterUI (registerUI exampleIndex registerU1).us disconnectedU1).us samplesToUI =
          { sent := none, err := none })) :=
  ⟨⟨rfl, rfl, by decide, rfl, rfl, rfl, rfl, by decide⟩,
    C10_samples_scenario sendOk exampleIndex registerU1 disconnectedU1 samplesToUI "u1"
      { MessageNames := ["samples", "logs", "samples"], Name := "u1" } { Typ := UIIdentifierType }
      rfl rfl (by decide) rfl rfl rfl rfl⟩

/-! ## Worker.sendMessageToUI -/

/-- C11: for a message sent by the current worker, the worker's
`sendMessageToUI` hands m to `WriteJSON` (once) exactly when `m.Name` is a
key of `us`; when it is not, nothing is written and no error is returned. -/
theorem C11_worker_sendMessageToUI (workerName : WorkerPackage.WorkerNameOf)
    (writeJSON : Message → Option String) (name : String) (us : GoMap Bool) (m : Message)
    (hfrom : workerName m.From = name) :
    ((WorkerPackage.sendMessageToUI workerName writeJSON name us m).written = [m] ↔
        m.Name ∈ GoMap.keys us) ∧
      (m.Name ∉ GoMap.keys us →
        WorkerPackage.sendMessageToUI workerName writeJSON name us m =
          { written := [], err := none }) := by
  unfold WorkerPackage.sendMessageToUI
  simp only [hfrom, ne_eq, not_true_eq_false, if_false]
  cases h : us.has m.Name with
  | true =>
    have hk := (GoMap.has_iff_mem_keys us m.Name).1 h
    simp [hk]
  | false =>
    have hk := (GoMap.has_eq_false_iff us m.Name).1 h
    simp [hk]

theorem C11_worker_sendMessageToUI_witness :
    exampleWorkerName samplesFromMe.From = "me" ∧
    (((WorkerPackage.sendMessageToUI exampleWorkerName writeOk "me" wantedSamples
          samplesFromMe).written = [samplesFromMe] ↔
        samplesFromMe.Name ∈ GoMap.keys wantedSamples) ∧
      (samplesFromMe.Name ∉ GoMap.keys wantedSamples →
        WorkerPackage.sendMessageToUI exampleWorkerName writeOk "me" wantedSamples samplesFromMe =
          { written := [], err := none })) :=
  ⟨by decide,
    C11_worker_sendMessageToUI exampleWorkerName writeOk "me" wantedSamples samplesFromMe
      (by decide)⟩

/-! ## Worker.sendMessageToWorker -/

theorem sendMessageToWorker_of_named (workerName : WorkerPackage.WorkerNameOf)
    (ch : WorkerPackage.HTTPClient) (name : String) (ws : WorkerPackage.Siblings) (m : Message)
    (to_ : Identifier) (hfrom : workerName m.From = name) (hTo : m.To = some to_)
    (hnamed : workerName to_ ≠ "") (hother : workerName to_ ≠ name) :
    WorkerPackage.sendMessageToWorker workerName ch name ws m =
      match AList.lookup (workerName to_) ws with
      | none =>
        { requests := [], err := some ("worker: worker " ++ workerName to_ ++ " doesn't exist") }
      | some mw => WorkerPackage.sendMessageToWorker.loop ch m [mw] [] [] := by
  unfold WorkerPackage.sendMessageToWorker
  simp only [hfrom, ne_eq, not_true_eq_false, if_false, hTo, hnamed, not_false_eq_true, if_true,
    hother]

theorem sendMessageToWorker_of_broadcast (workerName : WorkerPackage.WorkerNameOf)
    (ch : WorkerPackage.HTTPClient) (name : String) (ws : WorkerPackage.Siblings) (m : Message)
    (to_ : Identifier) (hfrom : workerName m.From = name) (hTo : m.To = some to_)
    (hnone : workerName to_ = "") :
    WorkerPackage.sendMessageToWorker workerName ch name ws m =
      WorkerPackage.sendMessageToWorker.loop ch m
        ((WorkerPackage.Siblings.values ws).filter (fun mw => decide (mw.name ≠ name))) [] [] := by
  unfold WorkerPackage.sendMessageToWorker
  simp only [hfrom, ne_eq, not_true_eq_false, if_false, hTo, hnone]

theorem sendMessageToWorker_loop_cons (ch : WorkerPackage.HTTPClient) (m : Message)
    (b : MessageJSON) (hb : marshalMessage m = Except.ok b) (mw : WorkerPackage.worker)
    (rest : List WorkerPackage.worker) (calls done : List WorkerPackage.Request) :
    WorkerPackage.sendMessageToWorker.loop ch m (mw :: rest) calls done =
      match WorkerPackage.sendRequestToWorker ch "POST" (mw.addr ++ "/api/messages") b with
      | some e =>
        { requests := calls ++ [WorkerPackage.requestTo b mw]
          err := some (wrap e ("worker: sending request to worker " ++ mw.name ++ " failed"))
          sent := done ++
            WorkerPackage.sendRequestToWorker.sent ch "POST" (mw.addr ++ "/api/messages") b }
      | none =>
        WorkerPackage.sendMessageToWorker.loop ch m rest (calls ++ [WorkerPackage.requestTo b mw])
          (done ++
            WorkerPackage.sendRequestToWorker.sent ch "POST" (mw.addr ++ "/api/messages") b) := by
  simp only [WorkerPackage.sendMessageToWorker.loop, hb, WorkerPackage.requestTo]

theorem sendMessageToWorker_loop_marshal_error (ch : WorkerPackage.HTTPClient) (m : Message)
    (e : String) (he : marshalMessage m = Except.error e) (mw : WorkerPackage.worker)
    (rest : List WorkerPackage.worker) (calls done : List WorkerPackage.Request) :
    WorkerPackage.sendMessageToWorker.loop ch m (mw :: rest) calls done =
      { requests := calls, err := some (wrap e "worker: marshaling failed"), sent := done } := by
  simp only [WorkerPackage.sendMessageToWorker.loop, he]

/-- C12: a message sent by the current worker whose `To` names the current
worker itself makes `sendMessageToWorker` call `sendRequestToWorker` not at
all and return no error, whatever the sibling table holds. -/
theorem C12_message_to_self (workerName : WorkerPackage.WorkerNameOf)
    (ch : WorkerPackage.HTTPClient) (name : String) (ws : WorkerPackage.Siblings) (m : Message)
    (to_ : Identifier) (hfrom : workerName m.From = name) (hTo : m.To = some to_)
    (hnamed : workerName to_ ≠ "") (hself : workerName to_ = name) :
    WorkerPackage.sendMessageToWorker workerName ch name ws m = { requests := [], err := none } := by
  have hn : name ≠ "" := hself ▸ hnamed
  unfold WorkerPackage.sendMessageToWorker
  simp only [hfrom, ne_eq, not_true_eq_false, if_false, hTo, hself, hn, not_false_eq_true,
    if_true]

theorem C12_message_to_self_witness :
    (exampleWorkerName fromMeToMe.From = "me" ∧
      fromMeToMe.To = some { Name := some "me", Typ := WorkerIdentifierType } ∧
      exampleWorkerName { Name := some "me", Typ := WorkerIdentifierType } ≠ "" ∧
      exampleWorkerName { Name := some "me", Typ := WorkerIdentifierType } = "me") ∧
    WorkerPackage.sendMessageToWorker exampleWorkerName bUnreachable "me" siblingsAB fromMeToMe =
      { requests := [], err := none } :=
  ⟨⟨by decide, rfl, by decide, by decide⟩,
    C12_message_to_self exampleWorkerName bUnreachable "me" siblingsAB fromMeToMe
      { Name := some "me", Typ := WorkerIdentifierType } (by decide) rfl (by decide) (by decide)⟩

/-- C17, on the code: a message sent by the current worker with no `To` makes
`sendMessageToWorker` issue no request and return a nil error, because
`errors.Wrap` of the nil `err` is nil. -/
theorem C17_no_to_returns_nil (workerName : WorkerPackage.WorkerNameOf)
    (ch : WorkerPackage.HTTPClient) (name : String) (ws : WorkerPackage.Siblings) (m : Message)
    (hfrom : workerName m.From = name) (hTo : m.To = none) :
    WorkerPackage.sendMessageToWorker workerName ch name ws m = { requests := [], err := none } := by
  unfold WorkerPackage.sendMessageToWorker
  simp only [hfrom, ne_eq, not_true_eq_false, if_false, hTo, errorsWrap, Option.map_none']

theorem C17_no_to_returns_nil_witness :
    (exampleWorkerName fromMeNoTo.From = "me" ∧ fromMeNoTo.To = none) ∧
    WorkerPackage.sendMessageToWorker exampleWorkerName bUnreachable "me" siblingsAB fromMeNoTo =
      { requests := [], err := none } :=
  ⟨⟨by decide, rfl⟩,
    C17_no_to_returns_nil exampleWorkerName bUnreachable "me" siblingsAB fromMeNoTo
      (by decide) rfl⟩

theorem sendRequestToWorker_fails_iff (ch : WorkerPackage.HTTPClient) (method url : String)
    (body : MessageJSON) :
    WorkerPackage.sendRequestToWorker ch method url body ≠ none ↔
      ch.NewRequest method url body ≠ none ∨
        (∃ e, ch.Do method url body = Except.error e) ∨
        ∃ resp, ch.Do method url body = Except.ok resp ∧
          resp.StatusCode ≠ WorkerPackage.StatusOK := by
  unfold WorkerPackage.sendRequestToWorker
  cases hn : ch.NewRequest method url body with
  | some e => simp
  | none =>
    cases hd : ch.Do method url body with
    | error e => simp
    | ok resp =>
      by_cases hs : resp.StatusCode = WorkerPackage.StatusOK
      · simp [hs]
      · by_cases hm : resp.Message = ""
        · simp [hs, hm]
        · simp [hs, hm]

theorem sendMessageToWorker_loop_single (ch : WorkerPackage.HTTPClient) (m : Message)
    (b : MessageJSON) (hb : marshalMessage m = Except.ok b) (mw : WorkerPackage.worker) :
    (WorkerPackage.sendMessageToWorker.loop ch m [mw] [] []).requests =
        [WorkerPackage.requestTo b mw] ∧
      ((WorkerPackage.sendMessageToWorker.loop ch m [mw] [] []).err ≠ none ↔
        WorkerPackage.reaches ch b mw = false) ∧
      (WorkerPackage.sendMessageToWorker.loop ch m [mw] [] []).sent =
        WorkerPackage.sendRequestToWorker.sent ch "POST" (mw.addr ++ "/api/messages") b := by
  rw [sendMessageToWorker_loop_cons ch m b hb mw [] [] []]
  unfold WorkerPackage.reaches
  cases WorkerPackage.sendRequestToWorker ch "POST" (mw.addr ++ "/api/messages") b with
  | some e => simp
  | none => simp [WorkerPackage.sendMessageToWorker.loop]

/-- C13, as stated, fails: the sibling a is in the table and every request to
it succeeds, yet the call returns an error and no request is issued, because
the payload of the message is not JSON and `json.Marshal` fails. -/
theorem C13_marshal_failure_is_an_error :
    exampleWorkerName malformedFromMeToA.From = "me" ∧
      AList.lookup "a" siblingsAB = some siblingA ∧
      (∀ b, WorkerPackage.reaches bUnreachable b siblingA = true) ∧
      (WorkerPackage.sendMessageToWorker exampleWorkerName bUnreachable "me" siblingsAB
          malformedFromMeToA).err ≠ none ∧
      (WorkerPackage.sendMessageToWorker exampleWorkerName bUnreachable "me" siblingsAB
          malformedFromMeToA).requests = [] ∧
      (WorkerPackage.sendMessageToWorker exampleWorkerName bUnreachable "me" siblingsAB
          malformedFromMeToA).sent = [] :=
  ⟨by decide, by decide, fun _ => rfl, by decide, by decide, by decide⟩

/-- C13, amended: for a message sent by the current worker and addressed to a
named sibling t other than the current worker, `sendMessageToWorker` returns
an error exactly when t is not in the sibling table, or the message cannot be
marshalled, or the request to t fails; a request fails exactly when it cannot
be created, the transport fails, or the response status is not 200. When t is
known, the message can be marshalled and the request can be created, exactly
one request is issued, that is handed to `w.ch.Do`, to the address of t; in
every other case no request is issued. -/
theorem C13_named_sibling (workerName : WorkerPackage.WorkerNameOf)
    (ch : WorkerPackage.HTTPClient) (name : String) (ws : WorkerPackage.Siblings) (m : Message)
    (to_ : Identifier) (hfrom : workerName m.From = name) (hTo : m.To = some to_)
    (hnamed : workerName to_ ≠ "") (hother : workerName to_ ≠ name) :
    ((WorkerPackage.sendMessageToWorker workerName ch name ws m).err ≠ none ↔
        workerName to_ ∉ GoMap.keys ws ∨
          (∃ e, marshalMessage m = Except.error e) ∨
          ∃ mw b, AList.lookup (workerName to_) ws = some mw ∧ marshalMessage m = Except.ok b ∧
            WorkerPackage.reaches ch b mw = false) ∧
      (∀ mw b, AList.lookup (workerName to_) ws = some mw → marshalMessage m = Except.ok b →
        ch.NewRequest "POST" (mw.addr ++ "/api/messages") b = none →
        (WorkerPackage.sendMessageToWorker workerName ch name ws m).sent =
          [{ method := "POST", url := mw.addr ++ "/api/messages", body := b }]) ∧
      (∀ mw b, AList.lookup (workerName to_) ws = some mw → marshalMessage m = Except.ok b →
        ch.NewRequest "POST" (mw.addr ++ "/api/messages") b ≠ none →
        (WorkerPackage.sendMessageToWorker workerName ch name ws m).sent = []) ∧
      (workerName to_ ∉ GoMap.keys ws ∨ (∃ e, marshalMessage m = Except.error e) →
        (WorkerPackage.sendMessageToWorker workerName ch name ws m).sent = []) ∧
      (∀ method url body,
        WorkerPackage.sendRequestToWorker ch method url body ≠ none ↔
          ch.NewRequest method url body ≠ none ∨
            (∃ e, ch.Do method url body = Except.error e) ∨
            ∃ resp, ch.Do method url body = Except.ok resp ∧
              resp.StatusCode ≠ WorkerPackage.StatusOK) := by
  rw [sendMessageToWorker_of_named workerName ch name ws m to_ hfrom hTo hnamed hother]
  refine ⟨?_, ?_, ?_, ?_, sendRequestToWorker_fails_iff ch⟩
  · cases hl : AList.lookup (workerName to_) ws with
    | none =>
      have hk : workerName to_ ∉ GoMap.keys ws := by
        rw [GoMap.mem_keys_iff_lookup]
        rintro ⟨v, hv⟩
        rw [hl] at hv
        cases hv
      simp [hk]
    | some mw =>
      have hk : workerName to_ ∈ GoMap.keys ws :=
        (GoMap.mem_keys_iff_lookup ws _).2 ⟨mw, hl⟩
      cases hb : marshalMessage m with
      | error e =>
        simp only [sendMessageToWorker_loop_marshal_error ch m e hb]
        simp
      | ok b =>
        simp only [(sendMessageToWorker_loop_single ch m b hb mw).2.1]
        simp [hk]
  · intro mw b hl hb hnew
    simp only [hl]
    rw [(sendMessageToWorker_loop_single ch m b hb mw).2.2]
    simp only [WorkerPackage.sendRequestToWorker.sent, hnew]
  · intro mw b hl hb hnew
    simp only [hl]
    rw [(sendMessageToWorker_loop_single ch m b hb mw).2.2]
    cases hn : ch.NewRequest "POST" (mw.addr ++ "/api/messages") b with
    | none => exact absurd hn hnew
    | some e => simp only [WorkerPackage.sendRequestToWorker.sent, hn]
  · intro h
    cases hl : AList.lookup (workerName to_) ws with
    | none => rfl
    | some mw =>
      have hk : workerName to_ ∈ GoMap.keys ws :=
        (GoMap.mem_keys_iff_lookup ws _).2 ⟨mw, hl⟩
      rcases h with h | ⟨e, he⟩
      · exact absurd hk h
      · simp only [sendMessageToWorker_loop_marshal_error ch m e he]

theorem C13_named_sibling_witness :
    (exampleWorkerName fromMeToA.From = "me" ∧
      fromMeToA.To = some { Name := some "a", Typ := WorkerIdentifierType } ∧
      exampleWorkerName { Name := some "a", Typ := WorkerIdentifierType } ≠ "" ∧
      exampleWorkerName { Name := some "a", Typ := WorkerIdentifierType } ≠ "me") ∧
    ((WorkerPackage.sendMessageToWorker exampleWorkerName bUnreachable "me" siblingsAB
        fromMeToA).sent.map (fun r => r.url) = ["http://a/api/messages"] ∧
      (WorkerPackage.sendMessageToWorker exampleWorkerName bUnreachable "me" siblingsAB
        fromMeToA).err = none ∧
      (WorkerPackage.sendMessageToWorker exampleWorkerName cannotCreate "me" siblingsAB
        fromMeToA).sent = [] ∧
      (WorkerPackage.sendMessageToWorker exampleWorkerName cannotCreate "me" siblingsAB
        fromMeToA).err ≠ none) ∧
    (((WorkerPackage.sendMessageToWorker exampleWorkerName bUnreachable "me" siblingsAB
          fromMeToA).err ≠ none ↔
        exampleWorkerName { Name := some "a", Typ := WorkerIdentifierType } ∉
            GoMap.keys siblingsAB ∨
          (∃ e, marshalMessage fromMeToA = Except.error e) ∨
          ∃ mw b,
            AList.lookup (exampleWorkerName { Name := some "a", Typ := WorkerIdentifierType })
                siblingsAB = some mw ∧
              marshalMessage fromMeToA = Except.ok b ∧
              WorkerPackage.reaches bUnreachable b mw = false) ∧
      (∀ mw b,
        AList.lookup (exampleWorkerName { Name := some "a", Typ := WorkerIdentifierType })
            siblingsAB = some mw →
          marshalMessage fromMeToA = Except.ok b →
          bUnreachable.NewRequest "POST" (mw.addr ++ "/api/messages") b = none →
          (WorkerPackage.sendMessageToWorker exampleWorkerName bUnreachable "me" siblingsAB
              fromMeToA).sent =
            [{ method := "POST", url := mw.addr ++ "/api/messages", body := b }]) ∧
      (∀ mw b,
        AList.lookup (exampleWorkerName { Name := some "a", Typ := WorkerIdentifierType })
            siblingsAB = some mw →
          marshalMessage fromMeToA = Except.ok b →
          bUnreachable.NewRequest "POST" (mw.addr ++ "/api/messages") b ≠ none →
          (WorkerPackage.sendMessageToWorker exampleWorkerName bUnreachable "me" siblingsAB
              fromMeToA).sent = []) ∧
      (exampleWorkerName { Name := some "a", Typ := WorkerIdentifierType } ∉
            GoMap.keys siblingsAB ∨
          (∃ e, marshalMessage fromMeToA = Except.error e) →
        (WorkerPackage.sendMessageToWorker exampleWorkerName bUnreachable "me" siblingsAB
            fromMeToA).sent = []) ∧
      (∀ method url body,
        WorkerPackage.sendRequestToWorker bUnreachable method url body ≠ none ↔
          bUnreachable.NewRequest method url body ≠ none ∨
            (∃ e, bUnreachable.Do method url body = Except.error e) ∨
            ∃ resp, bUnreachable.Do method url body = Except.ok resp ∧
              resp.StatusCode ≠ WorkerPackage.StatusOK)) :=
  ⟨⟨by decide, rfl, by decide, by decide⟩, ⟨by decide, by decide, by decide, by decide⟩,
    C13_named_sibling exampleWorkerName bUnreachable "me" siblingsAB fromMeToA
      { Name := some "a", Typ := WorkerIdentifierType } (by decide) rfl (by decide) (by decide)⟩

/-- C14, as stated, fails: in a table visited in the order b, a, with b
unreachable and a reachable, the broadcast stops at the failed request to b
and the reachable sibling a receives no request. -/
theorem C14_unreachable_first_stops_the_broadcast :
    exampleWorkerName broadcastFromMe.From = "me" ∧
      WorkerPackage.Siblings.values siblingsBA = [siblingB, siblingA] ∧
      (∀ b, WorkerPackage.reaches bUnreachable b siblingA = true) ∧
      (∀ b, WorkerPackage.reaches bUnreachable b siblingB = false) ∧
      (WorkerPackage.sendMessageToWorker exampleWorkerName bUnreachable "me" siblingsBA
          broadcastFromMe).requests.map (fun r => r.url) = ["http://b/api/messages"] ∧
      (WorkerPackage.sendMessageToWorker exampleWorkerName bUnreachable "me" siblingsBA
          broadcastFromMe).err ≠ none :=
  ⟨by decide, by decide, fun _ => rfl, fun _ => rfl, by decide, by decide⟩

/-- C14, amended: for a broadcast (a `To` with no worker name) of a message
that can be marshalled, to a sibling table holding two siblings x and y
visited in that order: when x is reachable and y is not, x receives a request
carrying the message, then the request to y fails; when x is unreachable and
y is reachable, the call stops at the failed request to x and y receives no
request. In both orders exactly one request fails and the call returns an
error. -/
theorem C14_broadcast_two_siblings (workerName : WorkerPackage.WorkerNameOf)
    (ch : WorkerPackage.HTTPClient) (name : String) (ws : WorkerPackage.Siblings) (m : Message)
    (to_ : Identifier) (b : MessageJSON) (x y : WorkerPackage.worker)
    (hfrom : workerName m.From = name) (hTo : m.To = some to_) (hnone : workerName to_ = "")
    (hb : marshalMessage m = Except.ok b)
    (hws : WorkerPackage.Siblings.values ws = [x, y]) (hx : x.name ≠ name) (hy : y.name ≠ name) :
    (WorkerPackage.reaches ch b x = true → WorkerPackage.reaches ch b y = false →
        (WorkerPackage.sendMessageToWorker workerName ch name ws m).requests =
            [WorkerPackage.requestTo b x, WorkerPackage.requestTo b y] ∧
          (WorkerPackage.sendMessageToWorker workerName ch name ws m).err ≠ none ∧
          ((WorkerPackage.sendMessageToWorker workerName ch name ws m).requests.filter
            (WorkerPackage.fails ch)).length = 1) ∧
      (WorkerPackage.reaches ch b x = false → WorkerPackage.reaches ch b y = true →
        (WorkerPackage.sendMessageToWorker workerName ch name ws m).requests =
            [WorkerPackage.requestTo b x] ∧
          WorkerPackage.requestTo b y ∉
            (WorkerPackage.sendMessageToWorker workerName ch name ws m).requests ∧
          (WorkerPackage.sendMessageToWorker workerName ch name ws m).err ≠ none ∧
          ((WorkerPackage.sendMessageToWorker workerName ch name ws m).requests.filter
            (WorkerPackage.fails ch)).length = 1) := by
  have hfilter : (WorkerPackage.Siblings.values ws).filter (fun mw => decide (mw.name ≠ name)) =
      [x, y] := by
    rw [hws]
    simp [hx, hy]
  rw [sendMessageToWorker_of_broadcast workerName ch name ws m to_ hfrom hTo hnone, hfilter,
    sendMessageToWorker_loop_cons ch m b hb x [y] [] []]
  have hfx : WorkerPackage.fails ch (WorkerPackage.requestTo b x) =
      !WorkerPackage.reaches ch b x := by
    simp only [WorkerPackage.fails, WorkerPackage.requestTo, WorkerPackage.reaches]
    cases WorkerPackage.sendRequestToWorker ch "POST" (x.addr ++ "/api/messages") b <;> rfl
  have hfy : WorkerPackage.fails ch (WorkerPackage.requestTo b y) =
      !WorkerPackage.reaches ch b y := by
    simp only [WorkerPackage.fails, WorkerPackage.requestTo, WorkerPackage.reaches]
    cases WorkerPackage.sendRequestToWorker ch "POST" (y.addr ++ "/api/messages") b <;> rfl
  constructor
  · intro hrx hry
    have hsx : WorkerPackage.sendRequestToWorker ch "POST" (x.addr ++ "/api/messages") b = none := by
      simpa [WorkerPackage.reaches] using hrx
    obtain ⟨e, hsy⟩ : ∃ e,
        WorkerPackage.sendRequestToWorker ch "POST" (y.addr ++ "/api/messages") b = some e := by
      cases h : WorkerPackage.sendRequestToWorker ch "POST" (y.addr ++ "/api/messages") b with
      | none => simp [WorkerPackage.reaches, h] at hry
      | some e => exact ⟨e, rfl⟩
    simp only [hsx, List.nil_append]
    rw [sendMessageToWorker_loop_cons ch m b hb y []]
    simp only [hsy]
    refine ⟨by simp, by simp, ?_⟩
    simp [List.filter_cons, hfx, hfy, hrx, hry]
  · intro hrx hry
    obtain ⟨e, hsx⟩ : ∃ e,
        WorkerPackage.sendRequestToWorker ch "POST" (x.addr ++ "/api/messages") b = some e := by
      cases h : WorkerPackage.sendRequestToWorker ch "POST" (x.addr ++ "/api/messages") b with
      | none => simp [WorkerPackage.reaches, h] at hrx
      | some e => exact ⟨e, rfl⟩
    simp only [hsx, List.nil_append]
    refine ⟨by simp, ?_, by simp, ?_⟩
    · intro hmem
      rw [List.mem_singleton] at hmem
      have : WorkerPackage.fails ch (WorkerPackage.requestTo b y) =
          WorkerPackage.fails ch (WorkerPackage.requestTo b x) := by rw [hmem]
      rw [hfx, hfy, hrx, hry] at this
      cases this
    · simp [List.filter_cons, hfx, hrx]

theorem C14_broadcast_two_siblings_witness :
    (exampleWorkerName broadcastFromMe.From = "me" ∧
      broadcastFromMe.To = some { Typ := WorkerIdentifierType } ∧
      exampleWorkerName { Typ := WorkerIdentifierType } = "" ∧
      WorkerPackage.Siblings.values siblingsAB = [siblingA, siblingB] ∧
      siblingA.name ≠ "me" ∧ siblingB.name ≠ "me") ∧
    (WorkerPackage.sendMessageToWorker exampleWorkerName bUnreachable "me" siblingsAB
        broadcastFromMe).requests.map (fun r => r.url) =
      ["http://a/api/messages", "http://b/api/messages"] ∧
    ∃ b, marshalMessage broadcastFromMe = Except.ok b ∧
      (WorkerPackage.reaches bUnreachable b siblingA = true →
        WorkerPackage.reaches bUnreachable b siblingB = false →
        (WorkerPackage.sendMessageToWorker exampleWorkerName bUnreachable "me" siblingsAB
            broadcastFromMe).requests =
            [WorkerPackage.requestTo b siblingA, WorkerPackage.requestTo b siblingB] ∧
          (WorkerPackage.sendMessageToWorker exampleWorkerName bUnreachable "me" siblingsAB
            broadcastFromMe).err ≠ none ∧
          ((WorkerPackage.sendMessageToWorker exampleWorkerName bUnreachable "me" siblingsAB
            broadcastFromMe).requests.filter (WorkerPackage.fails bUnreachable)).length = 1) :=
  ⟨⟨by decide, rfl, by decide, by decide, by decide, by decide⟩, by decide,
    ⟨_, rfl,
      (C14_broadcast_two_siblings exampleWorkerName bUnreachable "me" siblingsAB broadcastFromMe
        { Typ := WorkerIdentifierType } _ siblingA siblingB (by decide) rfl (by decide) rfl
        (by decide) (by decide) (by decide)).1⟩⟩

/-! ## Index.registerUI: errors, subscribers, and the invariant of the index -/

theorem registerUI_of_no_from (us : Subscriptions) (m : Message) (h : m.From.Name = none) :
    registerUI us m =
      { us := us, dispatched := [], unregistered := [], err := some "index: from name is empty" } := by
  simp only [registerUI, h]

theorem registerUI_of_parse_error (us : Subscriptions) (m : Message) (x e : String)
    (hfrom : m.From.Name = some x) (h : ParseUIRegisterPayload m = Except.error e) :
    registerUI us m =
      { us := us, dispatched := [], unregistered := []
        err := some (wrap e "index: parsing message payload failed") } := by
  simp only [registerUI, hfrom, h]

/-- C16: `registerUI` on a message whose `From.Name` is unset, or whose
payload cannot be parsed, returns an error, leaves the subscription index as
it was and dispatches no message. -/
theorem C16_registerUI_rejects (us : Subscriptions) (m : Message)
    (h : m.From.Name = none ∨ ∃ e, ParseUIRegisterPayload m = Except.error e) :
    (registerUI us m).err ≠ none ∧ (registerUI us m).us = us ∧
      (registerUI us m).dispatched = [] := by
  cases hf : m.From.Name with
  | none =>
    rw [registerUI_of_no_from us m hf]
    simp
  | some x =>
    rcases h with h | ⟨e, he⟩
    · rw [hf] at h
      cases h
    · rw [registerUI_of_parse_error us m x e hf he]
      simp

theorem C16_registerUI_rejects_witness :
    ((({ registerU1 with Payload := Payload.malformed } : Message).From.Name = none ∨
        ∃ e, ParseUIRegisterPayload { registerU1 with Payload := Payload.malformed } =
          Except.error e) ∧
      (registerUI exampleIndex { registerU1 with Payload := Payload.malformed }).err ≠ none ∧
      (registerUI exampleIndex { registerU1 with Payload := Payload.malformed }).us =
        exampleIndex ∧
      (registerUI exampleIndex { registerU1 with Payload := Payload.malformed }).dispatched = []) ∧
    ((registerUI exampleIndex { registerU1 with From := { Typ := UIIdentifierType } }).err ≠ none ∧
      (registerUI exampleIndex { registerU1 with From := { Typ := UIIdentifierType } }).us =
        exampleIndex ∧
      (registerUI exampleIndex { registerU1 with From := { Typ := UIIdentifierType } }).dispatched
        = []) :=
  ⟨⟨Or.inr ⟨_, rfl⟩,
      C16_registerUI_rejects exampleIndex { registerU1 with Payload := Payload.malformed }
        (Or.inr ⟨_, rfl⟩)⟩,
    C16_registerUI_rejects exampleIndex { registerU1 with From := { Typ := UIIdentifierType } }
      (Or.inl rfl)⟩

/-- C18, as stated, fails: the sender is named u1, the payload names the
session u2, the call succeeds, and the subscriber of "samples" is u2, not the
sender u1. -/
theorem C18_payload_name_is_subscribed :
    registerU2AsU1.From.Name = some "u1" ∧
      (registerUI GoMap.make registerU2AsU1).err = none ∧
      subscribers (registerUI GoMap.make registerU2AsU1).us "samples" = ["u2"] := by
  decide

/-- C18, amended: after a successful `registerUI(m)`, the session named in the
payload (`u.Name`) is a subscriber of every message name listed in the
payload, and no session other than that one gains a subscription; that
session is the sender when the payload names `m.From.Name`. -/
theorem C18_registerUI_subscribes_payload_name (us : Subscriptions) (m : Message) (u : UI)
    (hparse : ParseUIRegisterPayload m = Except.ok u) (hok : (registerUI us m).err = none) :
    (∀ n, n ∈ u.MessageNames → u.Name ∈ subscribers (registerUI us m).us n) ∧
      (∀ k s, s ∈ subscribers (registerUI us m).us k → s ∉ subscribers us k → s = u.Name) ∧
      (m.From.Name = some u.Name →
        ∀ n sender, m.From.Name = some sender → n ∈ u.MessageNames →
          sender ∈ subscribers (registerUI us m).us n) := by
  obtain ⟨x, hfrom⟩ := registerUI_from_of_success us m hok
  have hsub := registerUI_subscribers us m x u hfrom hparse
  refine ⟨?_, ?_, ?_⟩
  · intro n hn
    exact (hsub n u.Name).2 (Or.inr ⟨rfl, hn⟩)
  · intro k s hs hns
    rcases (hsub k s).1 hs with h | ⟨h, -⟩
    · exact absurd h hns
    · exact h
  · intro hsame n sender hsender hn
    rw [hsame] at hsender
    cases hsender
    exact (hsub n u.Name).2 (Or.inr ⟨rfl, hn⟩)

theorem C18_registerUI_subscribes_payload_name_witness :
    (ParseUIRegisterPayload registerU1 =
        Except.ok { MessageNames := ["samples", "logs", "samples"], Name := "u1" } ∧
      (registerUI exampleIndex registerU1).err = none) ∧
    ((∀ n, n ∈ ({ MessageNames := ["samples", "logs", "samples"], Name := "u1" } : UI).MessageNames →
        "u1" ∈ subscribers (registerUI exampleIndex registerU1).us n) ∧
      (∀ k s, s ∈ subscribers (registerUI exampleIndex registerU1).us k →
        s ∉ subscribers exampleIndex k → s = "u1") ∧
      (registerU1.From.Name = some "u1" →
        ∀ n sender, registerU1.From.Name = some sender →
          n ∈ ({ MessageNames := ["samples", "logs", "samples"], Name := "u1" } : UI).MessageNames →
          sender ∈ subscribers (registerUI exampleIndex registerU1).us n)) :=
  ⟨⟨rfl, by decide⟩,
    C18_registerUI_subscribes_payload_name exampleIndex registerU1
      { MessageNames := ["samples", "logs", "samples"], Name := "u1" } rfl (by decide)⟩

theorem registerUI_keys (us : Subscriptions) (m : Message) (x : String) (u : UI)
    (hfrom : m.From.Name = some x) (hparse : ParseUIRegisterPayload m = Except.ok u)
    (k : String) :
    k ∈ GoMap.keys (registerUI us m).us ↔ k ∈ GoMap.keys us ∨ k ∈ u.MessageNames := by
  rw [registerUI_of_parsed us m x u hfrom hparse]
  exact (registerUI_fold u.Name u.MessageNames (us, [])).1 k

theorem registerUI_us_cases (us : Subscriptions) (m : Message) :
    (registerUI us m).us = us ∨
      ∃ x u, m.From.Name = some x ∧ ParseUIRegisterPayload m = Except.ok u := by
  cases hf : m.From.Name with
  | none =>
    left
    rw [registerUI_of_no_from us m hf]
  | some x =>
    cases hp : ParseUIRegisterPayload m with
    | error e =>
      left
      rw [registerUI_of_parse_error us m x e hf hp]
    | ok u => exact Or.inr ⟨x, u, rfl, rfl⟩

theorem registerUI_noEmptyEntry (us : Subscriptions) (m : Message) (h : NoEmptyEntry us) :
    NoEmptyEntry (registerUI us m).us := by
  rcases registerUI_us_cases us m with hsame | ⟨x, u, hfrom, hparse⟩
  · rw [hsame]
    exact h
  · intro k hk
    have hsub := registerUI_subscribers us m x u hfrom hparse k
    rcases (registerUI_keys us m x u hfrom hparse k).1 hk with hold | hnew
    · obtain ⟨s, hs⟩ := List.exists_mem_of_ne_nil _ (h k hold)
      exact List.ne_nil_of_mem ((hsub s).2 (Or.inl hs))
    · exact List.ne_nil_of_mem ((hsub u.Name).2 (Or.inr ⟨rfl, hnew⟩))

theorem unregisterUI_of_parse_error (us : Subscriptions) (m : Message) (e : String)
    (h : ParseUIDisconnectedPayload m = Except.error e) :
    unregisterUI us m =
      { us := us, dispatched := [], unregistered := []
        err := some (wrap e "index: parsing message payload failed") } := by
  simp only [unregisterUI, h]

theorem unregisterUI_subscribers (us : Subscriptions) (m : Message) (s : String)
    (hparse : ParseUIDisconnectedPayload m = Except.ok s) (k : String) :
    subscribers (unregisterUI us m).us k = (subscribers us k).erase s := by
  have hl := unregisterUI_lookup us m s hparse k
  unfold subscribers GoMap.get
  rw [hl]
  cases hk : AList.lookup k us with
  | none => simp [unregisterUI.entry, GoMap.make, GoMap.keys]
  | some sessions =>
    simp only [unregisterUI.entry, Option.getD_some]
    by_cases hlen : (sessions.delete s).len = 0
    · have h0 : (sessions.delete s).keys = [] := List.length_eq_zero.1 hlen
      simp only [hlen, if_true, Option.getD_none]
      simp only [GoMap.delete, GoMap.keys, AList.keys_erase] at h0
      simp only [GoMap.keys, h0]
      rfl
    · simp only [hlen, if_false, Option.getD_some]
      simp only [GoMap.delete, GoMap.keys, AList.keys_erase]

theorem subscribers_nodup (us : Subscriptions) (k : String) : (subscribers us k).Nodup :=
  AList.keys_nodup _

theorem unregisterUI_not_subscribed (us : Subscriptions) (m : Message) (s : String)
    (hparse : ParseUIDisconnectedPayload m = Except.ok s) (k : String) :
    s ∉ subscribers (unregisterUI us m).us k := by
  rw [unregisterUI_subscribers us m s hparse k]
  intro h
  exact ((subscribers_nodup us k).mem_erase_iff.1 h).1 rfl

theorem unregisterUI_noEmptyEntry (us : Subscriptions) (m : Message) (h : NoEmptyEntry us) :
    NoEmptyEntry (unregisterUI us m).us := by
  cases hp : ParseUIDisconnectedPayload m with
  | error e =>
    rw [unregisterUI_of_parse_error us m e hp]
    exact h
  | ok s =>
    intro k hk
    obtain ⟨v, hv⟩ := (GoMap.mem_keys_iff_lookup _ k).1 hk
    rw [unregisterUI_lookup us m s hp k] at hv
    unfold subscribers
    rw [GoMap.get_eq_of_lookup _ _ v ((unregisterUI_lookup us m s hp k).trans hv)]
    cases hl : AList.lookup k us with
    | none =>
      rw [hl] at hv
      simp [unregisterUI.entry] at hv
    | some sessions =>
      rw [hl] at hv
      simp only [unregisterUI.entry] at hv
      by_cases hlen : (sessions.delete s).len = 0
      · simp [hlen] at hv
      · simp only [hlen, if_false, Option.some.injEq] at hv
        subst hv
        intro h0
        apply hlen
        simp only [GoMap.len]
        simp only [GoMap.keys] at h0
        rw [h0]
        rfl

theorem runCalls_noEmptyEntry (calls : List IndexCall) :
    ∀ us : Subscriptions, NoEmptyEntry us → NoEmptyEntry (runCalls us calls) := by
  induction calls with
  | nil =>
    intro us h
    exact h
  | cons c rest ih =>
    intro us h
    simp only [runCalls, List.foldl_cons]
    apply ih
    cases c with
    | register m => exact registerUI_noEmptyEntry us m h
    | unregister m => exact unregisterUI_noEmptyEntry us m h

theorem noEmptyEntry_make : NoEmptyEntry (GoMap.make : Subscriptions) := by
  intro k hk
  simp [GoMap.keys, GoMap.make] at hk

/-- C19: starting from the empty subscription index, after any sequence of
`registerUI` and `unregisterUI` calls every key of `us` has at least one
subscribed session; and right after an `unregisterUI(s)` the session s is in
no subscriber set. -/
theorem C19_index_invariant (calls : List IndexCall) :
    (∀ k, k ∈ GoMap.keys (runCalls GoMap.make calls) →
        subscribers (runCalls GoMap.make calls) k ≠ []) ∧
      ∀ m s, ParseUIDisconnectedPayload m = Except.ok s →
        ∀ k, s ∉ subscribers (runCalls GoMap.make (calls ++ [IndexCall.unregister m])) k := by
  constructor
  · exact runCalls_noEmptyEntry calls GoMap.make noEmptyEntry_make
  · intro m s hparse k
    simp only [runCalls, List.foldl_append, List.foldl_cons, List.foldl_nil, IndexCall.apply]
    exact unregisterUI_not_subscribed _ m s hparse k

theorem C19_index_invariant_witness :
    ParseUIDisconnectedPayload disconnectedU1 = Except.ok "u1" ∧
    (GoMap.keys (runCalls GoMap.make [IndexCall.register registerU1,
        IndexCall.register registerU2AsU1, IndexCall.unregister disconnectedU1]) = ["samples"] ∧
      subscribers (runCalls GoMap.make [IndexCall.register registerU1,
        IndexCall.register registerU2AsU1, IndexCall.unregister disconnectedU1]) "samples" =
        ["u2"]) ∧
    ((∀ k, k ∈ GoMap.keys (runCalls GoMap.make
          [IndexCall.register registerU1, IndexCall.register registerU2AsU1]) →
        subscribers (runCalls GoMap.make
          [IndexCall.register registerU1, IndexCall.register registerU2AsU1]) k ≠ []) ∧
      ∀ m s, ParseUIDisconnectedPayload m = Except.ok s →
        ∀ k, s ∉ subscribers (runCalls GoMap.make
          ([IndexCall.register registerU1, IndexCall.register registerU2AsU1] ++
            [IndexCall.unregister m])) k) :=
  ⟨rfl, by decide,
    C19_index_invariant [IndexCall.register registerU1, IndexCall.register registerU2AsU1]⟩

/-! ## Symmetry of Identifier.match -/

theorem checkType_comm (a b : Identifier) : a.checkType b = b.checkType a := by
  unfold Identifier.checkType
  cases ha : a.Types with
  | none =>
    cases hb : b.Types with
    | none =>
      simp only
      by_cases h : a.Typ = b.Typ
      · simp [h]
      · have h2 : ¬ b.Typ = a.Typ := fun h3 => h h3.symm
        simp [h, h2]
    | some bt => rfl
  | some at_ =>
    cases hb : b.Types with
    | none => rfl
    | some bt =>
      simp only
      rw [Bool.eq_iff_iff]
      simp only [List.any_eq_true, GoMap.has_iff_mem_keys]
      constructor
      · rintro ⟨t, h1, h2⟩
        exact ⟨t, h2, h1⟩
      · rintro ⟨t, h1, h2⟩
        exact ⟨t, h2, h1⟩

/-- C20: for identifiers a and b whose `Name` and `Worker` are unset,
`Identifier.match` is symmetric, whether `Type` and `Types` are set or unset
on either side. -/
theorem C20_match_symmetric (a b : Identifier)
    (haN : a.Name = none) (haW : a.Worker = none) (hbN : b.Name = none) (hbW : b.Worker = none) :
    a.matchIdentifier b = b.matchIdentifier a := by
  rw [Identifier.matchIdentifier_eq, Identifier.matchIdentifier_eq, checkType_comm a b]
  simp [Identifier.checkName, Identifier.checkWorker, haN, haW, hbN, hbW]

theorem C20_match_symmetric_witness :
    (({ Typ := "worker" } : Identifier).Name = none ∧
      ({ Typ := "worker" } : Identifier).Worker = none ∧
      ({ Types := some ((GoMap.make.set "runnable" true).set "worker" true) } : Identifier).Name
        = none ∧
      ({ Types := some ((GoMap.make.set "runnable" true).set "worker" true) } : Identifier).Worker
        = none) ∧
    Identifier.matchIdentifier { Typ := "worker" }
        { Types := some ((GoMap.make.set "runnable" true).set "worker" true) } =
      Identifier.matchIdentifier
        { Types := some ((GoMap.make.set "runnable" true).set "worker" true) }
        { Typ := "worker" } :=
  ⟨⟨rfl, rfl, rfl, rfl⟩,
    C20_match_symmetric { Typ := "worker" }
      { Types := some ((GoMap.make.set "runnable" true).set "worker" true) } rfl rfl rfl rfl⟩

/-! ## The JSON envelope -/

theorem omitEmptyString_getD (s : String) : (omitEmptyString s).getD "" = s := by
  unfold omitEmptyString
  by_cases h : s = ""
  · simp [h]
  · simp [h]

theorem unmarshal_marshalAbility (a : Ability) : unmarshalAbility (marshalAbility a) = a := by
  simp only [unmarshalAbility, marshalAbility, omitEmptyString_getD]

theorem unmarshal_marshalWorker (w : Worker) : unmarshalWorker (marshalWorker w) = w := by
  unfold unmarshalWorker marshalWorker
  simp only [omitEmptyString_getD]
  by_cases h : w.Abilities = []
  · simp only [h, if_true, Option.getD_none, List.map_nil]
    cases w
    simp only at h
    simp [h]
  · simp only [h, if_false, Option.getD_some, List.map_map]
    have hid : unmarshalAbility ∘ marshalAbility = id := by
      funext a
      exact unmarshal_marshalAbility a
    rw [hid, List.map_id]

theorem unmarshal_marshalIdentifier (i : Identifier) :
    unmarshalIdentifier (marshalIdentifier i) = i.afterJSON := by
  simp only [unmarshalIdentifier, marshalIdentifier, omitEmptyString_getD, Identifier.afterJSON]

theorem afterJSON_eq_self (i : Identifier) (h : ∀ ts, i.Types = some ts → GoMap.len ts ≠ 0) :
    i.afterJSON = i := by
  unfold Identifier.afterJSON
  cases ht : i.Types with
  | none =>
    cases i
    simp only at ht
    simp [ht]
  | some ts =>
    have := h ts ht
    cases i
    simp only at ht
    simp [ht, this]

theorem unmarshal_marshalMessage (m : Message) (j : MessageJSON)
    (hj : marshalMessage m = Except.ok j) :
    unmarshalMessage j =
      { From := m.From.afterJSON, Name := m.Name, Payload := m.Payload
        To := m.To.map Identifier.afterJSON, PayloadSpelling := Spelling.marshalled } := by
  unfold marshalMessage at hj
  cases hp : m.Payload with
  | malformed =>
    rw [hp] at hj
    cases hj
  | empty =>
    rw [hp] at hj
    simp only [Except.ok.injEq] at hj
    subst hj
    simp [unmarshalMessage, unmarshal_marshalIdentifier, Option.map_map, Function.comp_def]
  | name s =>
    rw [hp] at hj
    simp only [Except.ok.injEq] at hj
    subst hj
    simp [unmarshalMessage, unmarshal_marshalIdentifier, Option.map_map, Function.comp_def]
  | names ns =>
    rw [hp] at hj
    simp only [Except.ok.injEq] at hj
    subst hj
    simp [unmarshalMessage, unmarshal_marshalIdentifier, Option.map_map, Function.comp_def]
  | ui n ms =>
    rw [hp] at hj
    simp only [Except.ok.injEq] at hj
    subst hj
    simp [unmarshalMessage, unmarshal_marshalIdentifier, Option.map_map, Function.comp_def]
  | worker w =>
    rw [hp] at hj
    simp only [Except.ok.injEq] at hj
    subst hj
    simp [unmarshalMessage, unmarshal_marshalIdentifier, Option.map_map, Function.comp_def]

/-- C15, as stated, fails, on `To` and on the payload bytes: a message whose
`To` carries an empty, non-nil `Types` map is marshalled without the `types`
member (`omitempty`) and comes back from `handleUIMessage` with a nil `Types`;
and a payload whose bytes are not spelled as `json.Marshal` spells them comes
back compacted and escaped, that is as other bytes. -/
theorem C15_to_and_payload_bytes_not_preserved :
    (∃ j, marshalMessage toEmptyTypes = Except.ok j ∧
        (handleUIMessage (Bytes.envelope j)).dispatched.map
            (fun m => m.To.map (fun i => i.Types.isSome)) = [some false] ∧
        toEmptyTypes.To.map (fun i => i.Types.isSome) = some true) ∧
      ∃ j, marshalMessage spacedPayload = Except.ok j ∧
        (handleUIMessage (Bytes.envelope j)).dispatched.map (fun m => m.PayloadSpelling) =
          [Spelling.marshalled] ∧
        spacedPayload.PayloadSpelling = Spelling.other :=
  ⟨⟨_, rfl, by decide, by decide⟩, ⟨_, rfl, by decide, by decide⟩⟩

/-- C15, amended: marshalling a message whose payload is JSON and decoding the
result in `handleUIMessage` yields a message with the same `Name`, with the
same `From` and `To` except that an empty `Types` map comes back nil, and with
the same payload value, spelled as `json.Marshal` spells it: the payload bytes
are the same when they were spelled so, and other bytes when they were not.
The whole message is the same when no identifier carries an empty `Types` map
and the payload is spelled as `json.Marshal` spells it. For every `Worker` w,
the message built by `NewCmdWorkerRegisterMessage(from, to, w)` has `From` =
from, `To` = to and `Name` = "cmd.worker.register", its payload is spelled as
`json.Marshal` spells it, and `ParseCmdWorkerRegisterPayload` returns w on it,
also after it went through its JSON envelope. -/
theorem C15_json_round_trip :
    (∀ m j, marshalMessage m = Except.ok j →
        handleUIMessage (Bytes.envelope j) = { dispatched := [unmarshalMessage j], err := none } ∧
        (unmarshalMessage j).Name = m.Name ∧
        (unmarshalMessage j).Payload = m.Payload ∧
        (unmarshalMessage j).PayloadSpelling = Spelling.marshalled ∧
        (unmarshalMessage j).From = m.From.afterJSON ∧
        (unmarshalMessage j).To = m.To.map Identifier.afterJSON ∧
        ((∀ ts, m.From.Types = some ts → GoMap.len ts ≠ 0) →
          (∀ i ts, m.To = some i → i.Types = some ts → GoMap.len ts ≠ 0) →
          m.PayloadSpelling = Spelling.marshalled →
          unmarshalMessage j = m)) ∧
      ∀ (from_ : Identifier) (to_ : Option Identifier) (w : Worker),
        ∃ msg, NewCmdWorkerRegisterMessage from_ to_ w = Except.ok msg ∧
          msg.From = from_ ∧ msg.To = to_ ∧ msg.Name = "cmd.worker.register" ∧
          msg.PayloadSpelling = Spelling.marshalled ∧
          ParseCmdWorkerRegisterPayload msg = Except.ok w ∧
          ∃ j, marshalMessage msg = Except.ok j ∧
            (unmarshalMessage j).Payload = msg.Payload ∧
            (unmarshalMessage j).PayloadSpelling = msg.PayloadSpelling ∧
            ParseCmdWorkerRegisterPayload (unmarshalMessage j) = Except.ok w := by
  constructor
  · intro m j hj
    have h := unmarshal_marshalMessage m j hj
    refine ⟨rfl, ?_, ?_, ?_, ?_, ?_, ?_⟩
    · rw [h]
    · rw [h]
    · rw [h]
    · rw [h]
    · rw [h]
    · intro hFrom hTo hSpelling
      rw [h, afterJSON_eq_self m.From hFrom]
      have hto : m.To.map Identifier.afterJSON = m.To := by
        cases hm : m.To with
        | none => rfl
        | some i =>
          simp only [Option.map_some']
          rw [afterJSON_eq_self i (fun ts hts => hTo i ts hm hts)]
      rw [hto, ← hSpelling]
  · intro from_ to_ w
    refine ⟨_, rfl, rfl, rfl, rfl, rfl, ?_, ?_⟩
    · simp only [ParseCmdWorkerRegisterPayload, unmarshal_marshalWorker]
    · refine ⟨_, rfl, rfl, rfl, ?_⟩
      simp only [unmarshalMessage, ParseCmdWorkerRegisterPayload]
      simp [unmarshal_marshalWorker]

theorem C15_json_round_trip_witness :
    (∃ msg, NewCmdWorkerRegisterMessage { Name := some "micro", Typ := WorkerIdentifierType }
          (some { Typ := IndexIdentifierType }) workerMicro = Except.ok msg ∧
        msg.Name = "cmd.worker.register" ∧
        ParseCmdWorkerRegisterPayload msg = Except.ok workerMicro) ∧
    ∃ j, marshalMessage registerU1 = Except.ok j ∧
      (unmarshalMessage j).Name = registerU1.Name ∧
      (unmarshalMessage j).Payload = registerU1.Payload ∧
      (unmarshalMessage j).PayloadSpelling = Spelling.marshalled :=
  ⟨(C15_json_round_trip.2 { Name := some "micro", Typ := WorkerIdentifierType }
        (some { Typ := IndexIdentifierType }) workerMicro).imp
      (fun _ h => ⟨h.1, h.2.2.2.1, h.2.2.2.2.2.1⟩),
    ⟨_, rfl,
      (C15_json_round_trip.1 registerU1 _ rfl).2.1,
      (C15_json_round_trip.1 registerU1 _ rfl).2.2.1,
      (C15_json_round_trip.1 registerU1 _ rfl).2.2.2.1⟩⟩

/-! ## worker.New: one handler for each `To` -/

theorem matchIdentifier_of_bare_filter (f c : Identifier) (hN : f.Name = none)
    (hW : f.Worker = none) : f.matchIdentifier c = f.checkType c := by
  rw [Identifier.matchIdentifier_eq]
  simp [Identifier.checkName, Identifier.checkWorker, hN, hW]

theorem toIndexFilter_matches_iff (c : Identifier) (hT : c.Types = none) :
    toIndexFilter.matchIdentifier c = true ↔ c.Typ = IndexIdentifierType := by
  rw [matchIdentifier_of_bare_filter toIndexFilter c rfl rfl]
  simp only [Identifier.checkType, toIndexFilter, hT, decide_eq_true_eq]
  exact eq_comm

theorem toUIFilter_matches_iff (c : Identifier) (hT : c.Types = none) :
    toUIFilter.matchIdentifier c = true ↔ c.Typ = UIIdentifierType := by
  rw [matchIdentifier_of_bare_filter toUIFilter c rfl rfl]
  simp only [Identifier.checkType, toUIFilter, hT, decide_eq_true_eq]
  exact eq_comm

theorem toWorkerFilter_matches_iff (c : Identifier) (hT : c.Types = none) :
    toWorkerFilter.matchIdentifier c = true ↔
      c.Typ = WorkerIdentifierType ∨ c.Typ = RunnableIdentifierType := by
  rw [matchIdentifier_of_bare_filter toWorkerFilter c rfl rfl]
  simp only [Identifier.checkType, toWorkerFilter, hT, GoMap.has_iff_mem_keys,
    GoMap.mem_keys_set, GoMap.keys_make, List.not_mem_nil, or_false]

/-- C21: for a `To` identifier c with `Types` unset, the filter `{Type: index}`
matches exactly when `c.Type` is index, `{Type: ui}` exactly when it is ui,
and `{Types: {runnable, worker}}` exactly when it is worker or runnable; so
when `c.Type` is one of index, ui, worker, runnable exactly one of the three
filters matches c, and the message is routed by exactly one of
`sendMessageToIndex`, `sendMessageToUI`, `sendMessageToWorker`. -/
theorem C21_to_filters_partition (c : Identifier) (hT : c.Types = none)
    (hc : c.Typ = IndexIdentifierType ∨ c.Typ = UIIdentifierType ∨
      c.Typ = WorkerIdentifierType ∨ c.Typ = RunnableIdentifierType) :
    (toIndexFilter.matchIdentifier c = true ↔ c.Typ = IndexIdentifierType) ∧
      (toUIFilter.matchIdentifier c = true ↔ c.Typ = UIIdentifierType) ∧
      (toWorkerFilter.matchIdentifier c = true ↔
        c.Typ = WorkerIdentifierType ∨ c.Typ = RunnableIdentifierType) ∧
      (c.Typ = IndexIdentifierType → routedBy c = [ToHandler.sendMessageToIndex]) ∧
      (c.Typ = UIIdentifierType → routedBy c = [ToHandler.sendMessageToUI]) ∧
      (c.Typ = WorkerIdentifierType ∨ c.Typ = RunnableIdentifierType →
        routedBy c = [ToHandler.sendMessageToWorker]) ∧
      ∃ h, routedBy c = [h] := by
  have hi := toIndexFilter_matches_iff c hT
  have hu := toUIFilter_matches_iff c hT
  have hw := toWorkerFilter_matches_iff c hT
  have hroute : ∀ (bi bu bw : Bool), toIndexFilter.matchIdentifier c = bi →
      toUIFilter.matchIdentifier c = bu → toWorkerFilter.matchIdentifier c = bw →
      routedBy c =
        (if bi then [ToHandler.sendMessageToIndex] else []) ++
          ((if bu then [ToHandler.sendMessageToUI] else []) ++
            (if bw then [ToHandler.sendMessageToWorker] else [])) := by
    intro bi bu bw h1 h2 h3
    simp only [routedBy, toConditions, List.filter_cons, List.filter_nil, h1, h2, h3]
    cases bi <;> cases bu <;> cases bw <;> rfl
  have h1 : c.Typ = IndexIdentifierType → routedBy c = [ToHandler.sendMessageToIndex] := by
    intro h
    have e2 : toUIFilter.matchIdentifier c = false := by
      rw [Bool.eq_false_iff, Ne, hu, h]
      decide
    have e3 : toWorkerFilter.matchIdentifier c = false := by
      rw [Bool.eq_false_iff, Ne, hw, h]
      decide
    rw [hroute true false false (hi.2 h) e2 e3]
    rfl
  have h2 : c.Typ = UIIdentifierType → routedBy c = [ToHandler.sendMessageToUI] := by
    intro h
    have e1 : toIndexFilter.matchIdentifier c = false := by
      rw [Bool.eq_false_iff, Ne, hi, h]
      decide
    have e3 : toWorkerFilter.matchIdentifier c = false := by
      rw [Bool.eq_false_iff, Ne, hw, h]
      decide
    rw [hroute false true false e1 (hu.2 h) e3]
    rfl
  have h3 : c.Typ = WorkerIdentifierType ∨ c.Typ = RunnableIdentifierType →
      routedBy c = [ToHandler.sendMessageToWorker] := by
    intro h
    have e1 : toIndexFilter.matchIdentifier c = false := by
      rw [Bool.eq_false_iff, Ne, hi]
      rcases h with h | h <;> rw [h] <;> decide
    have e2 : toUIFilter.matchIdentifier c = false := by
      rw [Bool.eq_false_iff, Ne, hu]
      rcases h with h | h <;> rw [h] <;> decide
    rw [hroute false false true e1 e2 (hw.2 h)]
    rfl
  refine ⟨hi, hu, hw, h1, h2, h3, ?_⟩
  rcases hc with h | h | h | h
  · exact ⟨_, h1 h⟩
  · exact ⟨_, h2 h⟩
  · exact ⟨_, h3 (Or.inl h)⟩
  · exact ⟨_, h3 (Or.inr h)⟩

theorem C21_to_filters_partition_witness :
    (echoOfMicro.Types = none ∧
      (echoOfMicro.Typ = IndexIdentifierType ∨ echoOfMicro.Typ = UIIdentifierType ∨
        echoOfMicro.Typ = WorkerIdentifierType ∨ echoOfMicro.Typ = RunnableIdentifierType)) ∧
    routedBy echoOfMicro = [ToHandler.sendMessageToWorker] ∧
    ((toIndexFilter.matchIdentifier echoOfMicro = true ↔
        echoOfMicro.Typ = IndexIdentifierType) ∧
      (toUIFilter.matchIdentifier echoOfMicro = true ↔ echoOfMicro.Typ = UIIdentifierType) ∧
      (toWorkerFilter.matchIdentifier echoOfMicro = true ↔
        echoOfMicro.Typ = WorkerIdentifierType ∨ echoOfMicro.Typ = RunnableIdentifierType) ∧
      (echoOfMicro.Typ = IndexIdentifierType →
        routedBy echoOfMicro = [ToHandler.sendMessageToIndex]) ∧
      (echoOfMicro.Typ = UIIdentifierType → routedBy echoOfMicro = [ToHandler.sendMessageToUI]) ∧
      (echoOfMicro.Typ = WorkerIdentifierType ∨ echoOfMicro.Typ = RunnableIdentifierType →
        routedBy echoOfMicro = [ToHandler.sendMessageToWorker]) ∧
      ∃ h, routedBy echoOfMicro = [h]) :=
  ⟨⟨rfl, by decide⟩, by decide,
    C21_to_filters_partition echoOfMicro rfl (by decide)⟩

/-! ## The index as the code builds it: recipients and announcements -/

theorem sendMessageToUI_of_noEmptyEntry (send : SendMessage) (us : Subscriptions) (m : Message)
    (to_ : Identifier) (hTo : m.To = some to_) (hN : to_.Name = none) (h : NoEmptyEntry us) :
    (sendMessageToUI send us m).sent.getD [] = subscribers us m.Name ∧
      (subscribers us m.Name ≠ [] →
        (sendMessageToUI send us m).sent = some (subscribers us m.Name)) ∧
      (subscribers us m.Name = [] →
        sendMessageToUI send us m = { sent := none, err := none }) := by
  by_cases hk : m.Name ∈ GoMap.keys us
  · have hs := sendMessageToUI_of_entry send us m to_ hTo hN hk
    refine ⟨?_, ?_, ?_⟩
    · rw [hs]
      rfl
    · intro _
      rw [hs]
    · intro hnone
      exact absurd hnone (h m.Name hk)
  · have hs := sendMessageToUI_of_no_entry send us m to_ hTo hN hk
    have hnone := subscribers_of_not_mem us m.Name hk
    refine ⟨?_, ?_, ?_⟩
    · rw [hs, hnone]
      rfl
    · intro hne
      exact absurd hnone hne
    · intro _
      exact hs

/-- C6: for a message whose `To` is set with no `Name`, and every subscription
index that `registerUI` and `unregisterUI` build from the empty one, the names
handed to `sendMessage` are exactly the sessions of `us[m.Name]`; when no
session is subscribed to `m.Name`, `sendMessage` is not called and no error is
returned. -/
theorem C6_sendMessageToUI_subscribers (send : SendMessage) (calls : List IndexCall)
    (m : Message) (to_ : Identifier) (hTo : m.To = some to_) (hN : to_.Name = none) :
    (sendMessageToUI send (runCalls GoMap.make calls) m).sent.getD [] =
        subscribers (runCalls GoMap.make calls) m.Name ∧
      (subscribers (runCalls GoMap.make calls) m.Name ≠ [] →
        (sendMessageToUI send (runCalls GoMap.make calls) m).sent =
          some (subscribers (runCalls GoMap.make calls) m.Name)) ∧
      (subscribers (runCalls GoMap.make calls) m.Name = [] →
        sendMessageToUI send (runCalls GoMap.make calls) m = { sent := none, err := none }) :=
  sendMessageToUI_of_noEmptyEntry send (runCalls GoMap.make calls) m to_ hTo hN
    (runCalls_noEmptyEntry calls GoMap.make noEmptyEntry_make)

theorem C6_sendMessageToUI_subscribers_witness :
    (samplesToUI.To = some { Typ := UIIdentifierType } ∧
      ({ Typ := UIIdentifierType } : Identifier).Name = none) ∧
    (subscribers (runCalls GoMap.make
        [IndexCall.register registerU1, IndexCall.register registerU2AsU1]) "samples" =
      ["u2", "u1"]) ∧
    ((sendMessageToUI sendOk (runCalls GoMap.make
          [IndexCall.register registerU1, IndexCall.register registerU2AsU1])
          samplesToUI).sent.getD [] =
        subscribers (runCalls GoMap.make
          [IndexCall.register registerU1, IndexCall.register registerU2AsU1]) samplesToUI.Name ∧
      (subscribers (runCalls GoMap.make
          [IndexCall.register registerU1, IndexCall.register registerU2AsU1]) samplesToUI.Name
          ≠ [] →
        (sendMessageToUI sendOk (runCalls GoMap.make
          [IndexCall.register registerU1, IndexCall.register registerU2AsU1]) samplesToUI).sent =
          some (subscribers (runCalls GoMap.make
            [IndexCall.register registerU1, IndexCall.register registerU2AsU1])
            samplesToUI.Name)) ∧
      (subscribers (runCalls GoMap.make
          [IndexCall.register registerU1, IndexCall.register registerU2AsU1]) samplesToUI.Name
          = [] →
        sendMessageToUI sendOk (runCalls GoMap.make
          [IndexCall.register registerU1, IndexCall.register registerU2AsU1]) samplesToUI =
          { sent := none, err := none })) :=
  ⟨⟨rfl, rfl⟩, by decide,
    C6_sendMessageToUI_subscribers sendOk
      [IndexCall.register registerU1, IndexCall.register registerU2AsU1] samplesToUI
      { Typ := UIIdentifierType } rfl rfl⟩

/-- C8: for every subscription index that `registerUI` and `unregisterUI`
build from the empty one and every successful `registerUI` call with payload
names ns, the names carried by the `ui.message_names.add` message dispatched
to the workers are exactly the names of ns that had no subscriber before the
call, each listed once; a name that already had a subscriber is not announced
again. -/
theorem C8_registerUI_announces_unsubscribed (calls : List IndexCall) (m : Message) (u : UI)
    (hparse : ParseUIRegisterPayload m = Except.ok u)
    (hok : (registerUI (runCalls GoMap.make calls) m).err = none) :
    ∃ msg : Message,
      (registerUI (runCalls GoMap.make calls) m).dispatched = [msg] ∧
      msg.Name = UIMessageNamesAddMessage ∧
      msg.To = some { Typ := WorkerIdentifierType } ∧
      msg.names.Nodup ∧
      (∀ n, n ∈ msg.names ↔
        n ∈ u.MessageNames ∧ subscribers (runCalls GoMap.make calls) n = []) ∧
      (∀ n, subscribers (runCalls GoMap.make calls) n ≠ [] → n ∉ msg.names) := by
  obtain ⟨msg, h1, h2, h3, h4, -, h6, h7⟩ :=
    registerUI_announces_new_keys (runCalls GoMap.make calls) m u hparse hok
  exact ⟨msg, h1, h2, h3, h4,
    h7 (runCalls_noEmptyEntry calls GoMap.make noEmptyEntry_make), h6⟩

theorem C8_registerUI_announces_unsubscribed_witness :
    (ParseUIRegisterPayload registerU1 =
        Except.ok { MessageNames := ["samples", "logs", "samples"], Name := "u1" } ∧
      (registerUI (runCalls GoMap.make [IndexCall.register registerU2AsU1]) registerU1).err =
        none) ∧
    ((registerUI (runCalls GoMap.make [IndexCall.register registerU2AsU1])
        registerU1).dispatched.map Message.names = [["logs"]]) ∧
    ∃ msg : Message,
      (registerUI (runCalls GoMap.make [IndexCall.register registerU2AsU1])
        registerU1).dispatched = [msg] ∧
      msg.Name = UIMessageNamesAddMessage ∧
      msg.To = some { Typ := WorkerIdentifierType } ∧
      msg.names.Nodup ∧
      (∀ n, n ∈ msg.names ↔
        n ∈ ({ MessageNames := ["samples", "logs", "samples"], Name := "u1" } : UI).MessageNames ∧
          subscribers (runCalls GoMap.make [IndexCall.register registerU2AsU1]) n = []) ∧
      (∀ n, subscribers (runCalls GoMap.make [IndexCall.register registerU2AsU1]) n ≠ [] →
        n ∉ msg.names) :=
  ⟨⟨rfl, by decide⟩, by decide,
    C8_registerUI_announces_unsubscribed [IndexCall.register registerU2AsU1] registerU1
      { MessageNames := ["samples", "logs", "samples"], Name := "u1" } rfl (by decide)⟩

end Astibob
